import Mathlib

/-!
# Pool connection manager (libpool/PoolManager.cpp)

A shallow embedding of the manager of `src/libpool/PoolManager.cpp`.

* The manager object is the record `State`; every member function and every
  client callback is a function `State → Outcome × State` (or a pure
  observer).  The returned state is the state at the moment the function
  returns, throws, or dereferences an empty `p_client`.
* Calls into collaborators (client, worker, timers, process signal) are
  appended to `State.effects` in program order.
* C++ `unsigned` values are natural numbers; `++`, `fetch_add(1)` and the
  conversions to `unsigned` are taken modulo `UINT_MOD = 2^32`.
-/

namespace PoolManager

/-- Number of values of the C++ type unsigned (32 bits). -/
def UINT_MOD : Nat := 4294967296

/-- Protocol families of an endpoint (enum class ProtocolFamily). -/
inductive ProtocolFamily where
  | GETWORK
  | STRATUM
  | SIMULATION
  deriving DecidableEq, Repr

/-- Modelled from the spec: the endpoint descriptor (class URI, declared outside
this file).  Only the accessors that PoolManager.cpp calls are kept: the canonical
string `str()`, `Host()`, `Port()`, `Family()`, `IsUnrecoverable()` and
`StratumMode()`. -/
structure URI where
  str : String
  Host : String
  Port : Nat
  Family : ProtocolFamily
  IsUnrecoverable : Bool
  StratumMode : Nat
  deriving DecidableEq, Repr

/-- Modelled from the spec: the settings record (struct PoolSettings, declared
outside this file).  `connections` is the endpoint registry. -/
structure PoolSettings where
  connections : List URI
  poolFailoverTimeout : Nat
  reportHashrate : Bool
  hashRateInterval : Nat
  hashRateId : String
  connectionMaxRetries : Nat
  delayBeforeRetry : Nat
  noWorkTimeout : Nat
  noResponseTimeout : Nat
  getWorkPollInterval : Nat
  benchmarkBlock : Nat
  deriving DecidableEq, Repr

/-- Modelled from the spec: the work package.  The hashes `header`, `seed` and
`boundary` are numbers (`h256()` is 0), `difficulty` is an uninterpreted value
that the manager only copies. -/
structure WorkPackage where
  header : Nat
  job : String
  epoch : Int
  seed : Nat
  boundary : Nat
  block : Int
  difficulty : Nat
  deriving DecidableEq, Repr

/-- The three concrete clients that rotateConnect constructs, with their
constructor arguments. -/
inductive ClientKind where
  | EthGetworkClient (noWorkTimeout getWorkPollInterval : Nat)
  | EthStratumClient (noWorkTimeout noResponseTimeout : Nat)
  | SimulateClient (benchmarkBlock : Nat)
  deriving DecidableEq, Repr

/-- Modelled from the spec: the pool client (class PoolClient and its three
subclasses, declared outside this file) as far as the manager observes it: what
`isConnected()` and `getConnection()` answer, and whether the manager installed its
callbacks.  `setConnection(u)` stores `u`, `unsetConnection()` clears it, and a newly
constructed client is not connected and holds no endpoint. -/
structure PoolClient where
  kind : ClientKind
  isConnected : Bool
  getConnection : Option URI
  handlersInstalled : Bool
  deriving DecidableEq, Repr

/-- Modelled from the spec: the worker (class Farm, declared outside this file) as
far as the manager observes it through `isMining()` and `paused()`.  The calls `start()`
and `stop()` set and clear mining, `pause()` and `resume()` set and clear paused; every
call is also recorded in the effect trace. -/
structure Farm where
  isMining : Bool
  paused : Bool
  deriving DecidableEq, Repr

/-- Calls the manager makes into its collaborators: the client, the worker, the
three timers, the execution context (`g_io_service.post`) and the process
(`raise(SIGTERM)`). -/
inductive Effect where
  | clientNew (k : ClientKind)
  | clientDestroy
  | clientSetConnection (u : URI)
  | clientUnsetConnection
  | clientConnect
  | clientDisconnect
  | farmStart
  | farmStop
  | farmPause
  | farmResume
  | farmSetWork (wp : WorkPackage)
  | failoverArm (minutes : Nat)
  | failoverCancel
  | submithrArm (seconds : Nat)
  | submithrCancel
  | reconnectArm (seconds : Nat)
  | reconnectCancel
  | postRotateConnect
  | raiseSIGTERM
  deriving DecidableEq, Repr

/-- The exceptions thrown in PoolManager.cpp: the four runtime_error messages
and the std::out_of_range of `vector::at`. -/
inductive Exn where
  /-- runtime_error: Outstanding operations. Retry ... -/
  | Outstanding
  /-- runtime_error: Index out-of bounds. -/
  | IndexOutOfBounds
  /-- runtime_error: the active connection cannot be removed. -/
  | RemoveActive
  /-- runtime_error: Not found. -/
  | NotFound
  /-- std::out_of_range raised by `connections.at(i)`. -/
  | out_of_range
  deriving DecidableEq, Repr

/-- How a call ends: it returns, it throws, or it calls a member through an
empty `p_client` or through the empty endpoint pointer of the client (undefined
behaviour, execution is not followed further). -/
inductive Outcome where
  | returned
  | threw (e : Exn)
  | nullClient
  deriving DecidableEq, Repr

/-- The manager object. -/
structure State where
  m_Settings : PoolSettings
  m_activeConnectionIdx : Nat
  m_connectionAttempt : Nat
  m_connectionSwitches : Nat
  m_epochChanges : Nat
  m_running : Bool
  m_stopping : Bool
  m_async_pending : Bool
  p_client : Option PoolClient
  m_currentWp : WorkPackage
  m_selectedHost : String
  farm : Farm
  effects : List Effect
  deriving DecidableEq, Repr

/-- The registry `m_Settings.connections`. -/
abbrev State.connections (s : State) : List URI := s.m_Settings.connections

/-- Replace the registry, keeping every other setting. -/
def State.setConnections (s : State) (l : List URI) : State :=
  { s with m_Settings := { s.m_Settings with connections := l } }

/-- Append one collaborator call to the trace. -/
def State.emit (s : State) (e : Effect) : State :=
  { s with effects := s.effects ++ [e] }

/-- The increment `m_connectionSwitches.fetch_add(1)`. -/
def State.bumpSwitches (s : State) : State :=
  { s with m_connectionSwitches := (s.m_connectionSwitches + 1) % UINT_MOD }

/-- The test `p_client && p_client->isConnected()`. -/
def State.clientConnected (s : State) : Bool :=
  match s.p_client with
  | none => false
  | some c => c.isConnected

/-- removeConnection(idx), lines 217-234. -/
def removeConnection (s : State) (idx : Nat) : Outcome × State :=
  if s.m_async_pending then (Outcome.threw Exn.Outstanding, s)
  else if idx ≥ s.connections.length then (Outcome.threw Exn.IndexOutOfBounds, s)
  else if idx = s.m_activeConnectionIdx then (Outcome.threw Exn.RemoveActive, s)
  else
    let s1 := s.setConnections (s.connections.eraseIdx idx)
    if s1.m_activeConnectionIdx > idx then
      (Outcome.returned, { s1 with m_activeConnectionIdx := s1.m_activeConnectionIdx - 1 })
    else (Outcome.returned, s1)

/-- setActiveConnectionCommon(idx), lines 236-251.  The compare-exchange on
`m_async_pending` fails exactly when the flag is already set. -/
def setActiveConnectionCommon (s : State) (idx : Nat) : Outcome × State :=
  if s.m_async_pending then (Outcome.threw Exn.Outstanding, s)
  else
    let s1 := { s with m_async_pending := true }
    if idx ≠ s1.m_activeConnectionIdx then
      let s2 := { s1.bumpSwitches with m_activeConnectionIdx := idx, m_connectionAttempt := 0 }
      match s2.p_client with
      | none => (Outcome.nullClient, s2)
      | some _ => (Outcome.returned, s2.emit Effect.clientDisconnect)
    else (Outcome.returned, { s1 with m_async_pending := false })

/-- setActiveConnection(unsigned idx), lines 257-263. -/
def setActiveConnection (s : State) (idx : Nat) : Outcome × State :=
  if idx ≥ s.connections.length then (Outcome.threw Exn.IndexOutOfBounds, s)
  else setActiveConnectionCommon s idx

/-- The comparison `boost::iequals`: same length and equal characters after upper-casing. -/
def iequals (a b : String) : Bool :=
  a.data.map Char.toUpper == b.data.map Char.toUpper

/-- Equality of two strings ignoring letter case, in the words of the spec
("matches case-insensitively"): the strings agree once every upper-case letter is
replaced by its lower-case form.  This is the reference against which `iequals` is
compared. -/
def equalIgnoringCase (a b : String) : Prop :=
  a.data.map Char.toLower = b.data.map Char.toLower

instance (a b : String) : Decidable (equalIgnoringCase a b) := by
  unfold equalIgnoringCase; infer_instance

/-- The loop of setActiveConnection(string&), lines 266-270: the first index, counted
from `idx`, whose canonical string matches. -/
def findConnection (connstring : String) : List URI → Nat → Option Nat
  | [], _ => none
  | u :: rest, idx =>
    if iequals u.str connstring then some idx else findConnection connstring rest (idx + 1)

/-- setActiveConnection(string& _connstring), lines 265-272.  The index is a size_t
converted to the unsigned parameter of setActiveConnectionCommon. -/
def setActiveConnectionStr (s : State) (connstring : String) : Outcome × State :=
  match findConnection connstring s.connections 0 with
  | some idx => setActiveConnectionCommon s (idx % UINT_MOD)
  | none => (Outcome.threw Exn.NotFound, s)

/-- getActiveConnection(), lines 274-280: `at` with the exception caught. -/
def getActiveConnection (s : State) : Option URI :=
  s.connections[s.m_activeConnectionIdx]?

/-- One entry of getConnectionsJson(). -/
structure JConn where
  index : Nat
  active : Bool
  uri : String
  deriving DecidableEq, Repr

/-- The loop of getConnectionsJson(), lines 285-291, from index `i` on. -/
def getConnectionsJsonFrom (cursor : Nat) : List URI → Nat → List JConn
  | [], _ => []
  | u :: rest, i =>
    { index := i % UINT_MOD, active := decide (i = cursor), uri := u.str } ::
      getConnectionsJsonFrom cursor rest (i + 1)

/-- getConnectionsJson(), lines 282-293. -/
def getConnectionsJson (s : State) : List JConn :=
  getConnectionsJsonFrom s.m_activeConnectionIdx s.connections 0

/-- Lines 307-308 (and 314-315, 328-329): wrap the cursor to 0 when it is not
below the registry size. -/
def State.clampIdx (s : State) : State :=
  if s.m_activeConnectionIdx ≥ s.connections.length then { s with m_activeConnectionIdx := 0 }
  else s

/-- The call `m_Settings.connections.erase(m_Settings.connections.begin() + m_activeConnectionIdx)`. -/
def State.eraseActive (s : State) : State :=
  s.setConnections (s.connections.eraseIdx s.m_activeConnectionIdx)

/-- Lines 311-322 of rotateConnect, `u` being `connections.at(m_activeConnectionIdx)`:
discard an unrecoverable endpoint, else drop a sole endpoint whose retries are
exhausted. -/
def discardStep (s : State) (u : URI) : State :=
  if u.IsUnrecoverable then
    (State.clampIdx { s.eraseActive with m_connectionAttempt := 0 }).bumpSwitches
  else if s.connections.length = 1 then
    if s.m_Settings.connectionMaxRetries ≠ 0 ∧
        s.m_connectionAttempt ≥ s.m_Settings.connectionMaxRetries then s.eraseActive
    else s
  else s

/-- Lines 324-331 of rotateConnect: rotate when the attempts reached the threshold. -/
def rotateStep (s : State) : State :=
  if ¬ s.connections.isEmpty ∧ s.m_Settings.connectionMaxRetries ≠ 0 ∧
      s.m_connectionAttempt ≥ s.m_Settings.connectionMaxRetries then
    (State.clampIdx { s with m_connectionAttempt := 0,
                             m_activeConnectionIdx := (s.m_activeConnectionIdx + 1) % UINT_MOD }).bumpSwitches
  else s

/-- A freshly constructed client. -/
def PoolClient.fresh (k : ClientKind) : PoolClient :=
  { kind := k, isConnected := false, getConnection := none, handlersInstalled := false }

/-- Lines 334-344: release the previous client, then construct the client of the
family of `u`. -/
def constructClient (s : State) (u : URI) : State :=
  let s0 := match s.p_client with
    | some _ => { s with p_client := none }.emit Effect.clientDestroy
    | none => s
  let s1 := if u.Family = ProtocolFamily.GETWORK then
      let k := ClientKind.EthGetworkClient s0.m_Settings.noWorkTimeout s0.m_Settings.getWorkPollInterval
      { s0 with p_client := some (PoolClient.fresh k) }.emit (Effect.clientNew k)
    else s0
  let s2 := if u.Family = ProtocolFamily.STRATUM then
      let k := ClientKind.EthStratumClient s1.m_Settings.noWorkTimeout s1.m_Settings.noResponseTimeout
      { s1 with p_client := some (PoolClient.fresh k) }.emit (Effect.clientNew k)
    else s1
  if u.Family = ProtocolFamily.SIMULATION then
    let k := ClientKind.SimulateClient s2.m_Settings.benchmarkBlock
    { s2 with p_client := some (PoolClient.fresh k) }.emit (Effect.clientNew k)
  else s2

/-- Lines 334-364 of rotateConnect, `u` being `connections.at(m_activeConnectionIdx)`:
the connection attempt. -/
def connectStep (s : State) (u : URI) : Outcome × State :=
  let s1 := constructClient s u
  -- if (p_client) setClientHandlers();
  let s2 := match s1.p_client with
    | some c => { s1 with p_client := some { c with handlersInstalled := true } }
    | none => s1
  let s3 := { s2 with m_connectionAttempt := (s2.m_connectionAttempt + 1) % UINT_MOD,
                      m_selectedHost := u.Host ++ ":" ++ toString u.Port }
  match s3.p_client with
  | none => (Outcome.nullClient, s3)
  | some c =>
    let s4 := { s3 with p_client := some { c with getConnection := some u } }.emit
      (Effect.clientSetConnection u)
    if s4.m_connectionAttempt > 1 ∧ s4.m_Settings.delayBeforeRetry > 0 then
      (Outcome.returned, s4.emit (Effect.reconnectArm s4.m_Settings.delayBeforeRetry))
    else (Outcome.returned, s4.emit Effect.clientConnect)

/-- Lines 366-378 of rotateConnect: the terminal path. -/
def terminateStep (s : State) : Outcome × State :=
  let s1 := if s.farm.isMining then
      { s with farm := { s.farm with isMining := false } }.emit Effect.farmStop
    else s
  (Outcome.returned, { s1 with m_running := false }.emit Effect.raiseSIGTERM)

/-- Line 333 onwards: connect when the registry is non-empty and the host of the
current endpoint is not the sentinel, otherwise terminate. -/
def connectOrTerminate (s : State) : Outcome × State :=
  if s.connections.isEmpty then terminateStep s
  else
    match s.connections[s.m_activeConnectionIdx]? with
    | none => (Outcome.threw Exn.out_of_range, s)
    | some v => if v.Host ≠ "exit" then connectStep s v else terminateStep s

/-- rotateConnect(), lines 302-380. -/
def rotateConnect (s : State) : Outcome × State :=
  if s.clientConnected then (Outcome.returned, s)
  else
    let s1 := s.clampIdx
    match s1.connections[s1.m_activeConnectionIdx]? with
    | none => (Outcome.threw Exn.out_of_range, s1)
    | some u => connectOrTerminate (rotateStep (discardStep s1 u))

/-- The on-disconnected callback, lines 94-120. -/
def onDisconnected (s : State) : Outcome × State :=
  match s.p_client with
  | none => (Outcome.nullClient, s)
  | some c =>
    let s1 := { s with p_client := some { c with getConnection := none } }.emit
      Effect.clientUnsetConnection
    let s2 := { s1 with m_currentWp := { s1.m_currentWp with header := 0 } }
    let s3 := (s2.emit Effect.failoverCancel).emit Effect.submithrCancel
    if s3.m_stopping then
      let s4 := if s3.farm.isMining then
          { s3 with farm := { s3.farm with isMining := false } }.emit Effect.farmStop
        else s3
      (Outcome.returned, { s4 with m_running := false })
    else
      let s4 := { s3 with m_async_pending := true, farm := { s3.farm with paused := true } }.emit
        Effect.farmPause
      (Outcome.returned, s4.emit Effect.postRotateConnect)

/-- start(), lines 295-300. -/
def start (s : State) : Outcome × State :=
  let s1 := { s with m_running := true, m_async_pending := true }
  (Outcome.returned, s1.bumpSwitches.emit Effect.postRotateConnect)

/-- The state after `k` invocations of rotateConnect when no connection attempt
succeeds: each attempt ends with the on-disconnected callback, which posts the next
invocation. -/
def rotateFailing : Nat → State → Outcome × State
  | 0, s => (Outcome.returned, s)
  | 1, s => rotateConnect s
  | k + 2, s => rotateConnect (onDisconnected (rotateFailing (k + 1) s).2).2

/-- addConnection, lines 205-209: append to the registry.  The overload taking a
string first builds the endpoint with the URI parser, which is outside this file; `u`
is the parsed endpoint. -/
def addConnection (s : State) (u : URI) : Outcome × State :=
  (Outcome.returned, s.setConnections (s.connections ++ [u]))

/-- failovertimer_elapsed(ec), lines 391-403.  `ec` is true when the timer reports an
error (it was cancelled). -/
def failovertimer_elapsed (s : State) (ec : Bool) : Outcome × State :=
  if ec then (Outcome.returned, s)
  else if s.m_running then
    if s.m_activeConnectionIdx ≠ 0 then
      let s1 := { s with m_activeConnectionIdx := 0, m_connectionAttempt := 0 }.bumpSwitches
      match s1.p_client with
      | none => (Outcome.nullClient, s1)
      | some _ => (Outcome.returned, s1.emit Effect.clientDisconnect)
    else (Outcome.returned, s)
  else (Outcome.returned, s)

/-- The on-connected callback, lines 56-92.  The worker calls `start()` and `resume()`
set mining and clear paused. -/
def onConnected (s : State) : Outcome × State :=
  let s1 := { s with m_connectionAttempt := 0,
                     m_currentWp := { s.m_currentWp with job := "", header := 0 } }
  let s2 := if s1.m_activeConnectionIdx ≠ 0 ∧ s1.m_Settings.poolFailoverTimeout ≠ 0 then
      s1.emit (Effect.failoverArm s1.m_Settings.poolFailoverTimeout)
    else s1.emit Effect.failoverCancel
  let s3 := if ¬ s2.farm.isMining then
      { s2 with farm := { s2.farm with isMining := true } }.emit Effect.farmStart
    else if s2.farm.paused then
      { s2 with farm := { s2.farm with paused := false } }.emit Effect.farmResume
    else s2
  let s4 := if s3.m_Settings.reportHashrate then
      s3.emit (Effect.submithrArm s3.m_Settings.hashRateInterval)
    else s3
  (Outcome.returned, { s4 with m_async_pending := false })

/-- Lines 127-136 of the on-work-received callback: whether the package starts a new
epoch.  The stratum mode is read through `p_client->getConnection()`; the result is
`none` when the client or its endpoint is missing while the mode is needed. -/
def newEpochOf (s : State) (wp : WorkPackage) : Option Bool :=
  if s.m_currentWp.epoch = -1 then some true
  else
    match s.p_client with
    | none => none
    | some c =>
      match c.getConnection with
      | none => none
      | some u =>
        if u.StratumMode = 3 then some (decide (wp.epoch ≠ s.m_currentWp.epoch))
        else some (decide (wp.seed ≠ s.m_currentWp.seed))

/-- The on-work-received callback, lines 122-163.  A package is empty when its header
is `h256()`.  `find_epoch_number` is the seed-to-epoch lookup of the hashing library
(`ethash::find_epoch_number`), a parameter.  The division of line 149 is the C++
division of int (truncating).  `showMiningAt()` only writes to the log. -/
def onWorkReceived (find_epoch_number : Nat → Int) (s : State) (wp : WorkPackage) :
    Outcome × State :=
  if wp.header = 0 then (Outcome.returned, s)
  else
    let currentEpoch := s.m_currentWp.epoch
    match newEpochOf s wp with
    | none => (Outcome.nullClient, s)
    | some newEpoch =>
      let s1 := { s with m_currentWp := wp }
      let s2 :=
        if newEpoch then
          let s3 := { s1 with m_epochChanges := (s1.m_epochChanges + 1) % UINT_MOD }
          if wp.epoch = -1 then
            if (0 : Int) ≤ s3.m_currentWp.block then
              { s3 with m_currentWp :=
                  { s3.m_currentWp with epoch := Int.tdiv s3.m_currentWp.block 30000 } }
            else
              { s3 with m_currentWp :=
                  { s3.m_currentWp with epoch := find_epoch_number s3.m_currentWp.seed } }
          else s3
        else { s1 with m_currentWp := { s1.m_currentWp with epoch := currentEpoch } }
      (Outcome.returned, s2.emit (Effect.farmSetWork s2.m_currentWp))

/-- The epoch-change condition in the words of the spec, for the current work `cur`,
the stratum mode `mode` reported by the client and the new package `wp`: the current
epoch is -1, or the mode is 3 and the epochs differ, or the mode is not 3 and the seeds
differ. -/
def epochChanged (cur : WorkPackage) (mode : Nat) (wp : WorkPackage) : Prop :=
  cur.epoch = -1 ∨ (mode = 3 ∧ wp.epoch ≠ cur.epoch) ∨ (mode ≠ 3 ∧ wp.seed ≠ cur.seed)

instance (cur : WorkPackage) (mode : Nat) (wp : WorkPackage) :
    Decidable (epochChanged cur mode wp) := by
  unfold epochChanged; infer_instance

/-! ## Concrete endpoints and manager states -/

/-- A stratum endpoint with the given host and unrecoverable flag. -/
def endpoint (host : String) (unrecoverable : Bool) : URI :=
  { str := "stratum://" ++ host ++ ":4444", Host := host, Port := 4444,
    Family := ProtocolFamily.STRATUM, IsUnrecoverable := unrecoverable, StratumMode := 0 }

/-- Settings with the given registry and retry threshold, everything else off. -/
def settingsOf (conns : List URI) (maxRetries : Nat) : PoolSettings :=
  { connections := conns, poolFailoverTimeout := 0, reportHashrate := false,
    hashRateInterval := 0, hashRateId := "", connectionMaxRetries := maxRetries,
    delayBeforeRetry := 0, noWorkTimeout := 0, noResponseTimeout := 0,
    getWorkPollInterval := 0, benchmarkBlock := 0 }

/-- Modelled from the spec: the manager right after construction (lines 21-53; the
member initialisers are in the absent header): cursor 0, no attempts, counters 0,
flags clear, no client, no work (epoch and block unknown). -/
def construct (st : PoolSettings) : State :=
  { m_Settings := st, m_activeConnectionIdx := 0, m_connectionAttempt := 0,
    m_connectionSwitches := 0, m_epochChanges := 0, m_running := false,
    m_stopping := false, m_async_pending := false, p_client := none,
    m_currentWp := { header := 0, job := "", epoch := -1, seed := 0, boundary := 0,
                     block := -1, difficulty := 0 },
    m_selectedHost := "", farm := { isMining := false, paused := false }, effects := [] }

/-- A connected stratum client bound to `u`. -/
def connectedClient (u : URI) : PoolClient :=
  { kind := ClientKind.EthStratumClient 0 0, isConnected := true, getConnection := some u,
    handlersInstalled := true }

/-- Endpoints A, B, C used in the instances below. -/
def epA : URI := endpoint "a.pool" false
/-- Second endpoint. -/
def epB : URI := endpoint "b.pool" false
/-- Third endpoint. -/
def epC : URI := endpoint "c.pool" false

/-- A manager with registry [A, B, C], mining on B (cursor 1) through a connected
client, no operation pending. -/
def miningOnB : State :=
  { construct (settingsOf [epA, epB, epC] 3) with
    m_activeConnectionIdx := 1, m_running := true, m_connectionSwitches := 2,
    p_client := some (connectedClient epB), farm := { isMining := true, paused := false } }

/-- A freshly constructed manager with registry [A, B]: no client exists yet. -/
def freshAB : State := construct (settingsOf [epA, epB] 3)

/-- A freshly constructed manager on [A, B] after start(): the scenario registry
[P, F] with max-retries 3. -/
def startedAB : State := (start freshAB).2

/-- Endpoint A marked unrecoverable. -/
def epDead : URI := endpoint "a.pool" true

/-- A started manager on [A, B] with A unrecoverable, cursor 0. -/
def startedDeadFirst : State := (start (construct (settingsOf [epDead, epB] 3))).2

/-- The sentinel endpoint, host `exit`. -/
def epExit : URI := endpoint "exit" false

/-- A started manager on [exit, B] with max-retries 1, cursor 0, no attempt made. -/
def startedExitFirst : State := (start (construct (settingsOf [epExit, epB] 1))).2

/-- A running manager whose only endpoint A has used up its 2 retries; the worker is
mining and the last client is disconnected. -/
def soleExhausted : State :=
  { construct (settingsOf [epA] 2) with
    m_connectionAttempt := 2, m_running := true, m_async_pending := true,
    m_connectionSwitches := 1,
    p_client := some { connectedClient epA with isConnected := false, getConnection := none },
    farm := { isMining := true, paused := true } }

/-- A running manager on the single endpoint A with retries left (1 of 2 used). -/
def soleRetrying : State := { soleExhausted with m_connectionAttempt := 1 }

/-- A running manager on [A, exit] with max-retries 1 whose single attempt on A
failed: cursor 0, attempts 1, the worker still mining, the client disconnected. -/
def exitSecond : State :=
  { construct (settingsOf [epA, epExit] 1) with
    m_connectionAttempt := 1, m_running := true, m_async_pending := true,
    m_connectionSwitches := 1,
    p_client := some { connectedClient epA with isConnected := false, getConnection := none },
    farm := { isMining := true, paused := true } }

/-- A manager constructed with no endpoint, after start(). -/
def startedEmpty : State := (start (construct (settingsOf [] 3))).2

/-- A running manager on [A, B] with max-retries 0 after 7 failed attempts on A. -/
def noThreshold : State :=
  { construct (settingsOf [epA, epB] 0) with
    m_connectionAttempt := 7, m_running := true, m_async_pending := true,
    m_connectionSwitches := 1,
    p_client := some { connectedClient epA with isConnected := false, getConnection := none } }

/-- Endpoint B marked unrecoverable. -/
def epDeadB : URI := endpoint "b.pool" true

/-- A started manager on [A, B] with both endpoints marked unrecoverable. -/
def startedBothDead : State := (start (construct (settingsOf [epDead, epDeadB] 3))).2

/-- A sample seed-to-epoch lookup. -/
def sampleLookup (seed : Nat) : Int := Int.ofNat (seed / 1000)

/-- A work package without epoch number at block height 60000, seed 11000. -/
def wpBlock60000 : WorkPackage :=
  { header := 1, job := "job-1", epoch := -1, seed := 11000, boundary := 5, block := 60000,
    difficulty := 4 }

/-- The manager mining on B (stratum mode 0) after it received `wpBlock60000`. -/
def afterFirstWork : State := (onWorkReceived sampleLookup miningOnB wpBlock60000).2

/-- A later package with the same seed that announces epoch 7. -/
def wpSameSeedEpoch7 : WorkPackage :=
  { wpBlock60000 with header := 2, job := "job-2", epoch := 7 }

/-- A package with another seed and no block height. -/
def wpOtherSeed : WorkPackage :=
  { header := 3, job := "job-3", epoch := -1, seed := 12000, boundary := 5, block := -1,
    difficulty := 4 }

/-- A running manager on [A, B] with B marked unrecoverable and max-retries 1, whose
single attempt on A failed: cursor 0, attempts 1. -/
def exhaustedBeforeDead : State :=
  { construct (settingsOf [epA, epDeadB] 1) with
    m_connectionAttempt := 1, m_running := true, m_async_pending := true,
    m_connectionSwitches := 1,
    p_client := some { connectedClient epA with isConnected := false, getConnection := none } }

/-! ## Predicates on manager states -/

/-- The cursor predicate of the spec: the registry is empty or the cursor is below the
registry size. -/
def cursorValid (s : State) : Prop :=
  s.connections = [] ∨ s.m_activeConnectionIdx < s.connections.length

instance (s : State) : Decidable (cursorValid s) := by
  unfold cursorValid; infer_instance

/-- The cursor is anchored: it is below the registry size, or the registry is empty and
the cursor is 0. -/
def cursorAnchored (s : State) : Prop :=
  s.m_activeConnectionIdx < s.connections.length ∨
    (s.connections = [] ∧ s.m_activeConnectionIdx = 0)

instance (s : State) : Decidable (cursorAnchored s) := by
  unfold cursorAnchored; infer_instance

/-- The attempts counter does not exceed max-retries. -/
def attemptsBounded (s : State) : Prop :=
  s.m_connectionAttempt ≤ s.m_Settings.connectionMaxRetries

instance (s : State) : Decidable (attemptsBounded s) := by
  unfold attemptsBounded; infer_instance

/-- The invocation of rotateConnect in state `s` proceeds to a connection attempt on
`v`: among the calls it issues is `setConnection(v)` on the client. -/
def handsOver (s : State) (v : URI) : Prop :=
  ∃ l, (rotateConnect s).2.effects = s.effects ++ l ∧ Effect.clientSetConnection v ∈ l

/-- The states the manager reaches from construction.  The six operations that write
the registry or the cursor are listed; `other` stands for every other step of the
manager or of its collaborators (start, stop, the client callbacks, the hashrate and
reconnect timers, a client marking an endpoint unrecoverable), none of which changes the
number of endpoints or the cursor. -/
inductive Reachable : State → Prop where
  | init (st : PoolSettings) : Reachable (construct st)
  | add (s : State) (u : URI) : Reachable s → Reachable (addConnection s u).2
  | remove (s : State) (idx : Nat) : Reachable s → Reachable (removeConnection s idx).2
  | select (s : State) (idx : Nat) : Reachable s → Reachable (setActiveConnection s idx).2
  | selectUri (s : State) (uri : String) :
      Reachable s → Reachable (setActiveConnectionStr s uri).2
  | failover (s : State) (ec : Bool) : Reachable s → Reachable (failovertimer_elapsed s ec).2
  | rotate (s : State) : Reachable s → Reachable (rotateConnect s).2
  | other (s t : State) : Reachable s → t.connections.length = s.connections.length →
      t.m_activeConnectionIdx = s.m_activeConnectionIdx → Reachable t

/-! ## Registry operations -/

/-- When removeConnection returns, none of its three guards fired. -/
theorem removeConnection_returned_cond (s : State) (idx : Nat)
    (hok : (removeConnection s idx).1 = Outcome.returned) :
    s.m_async_pending = false ∧ ¬ idx ≥ s.connections.length ∧
    ¬ idx = s.m_activeConnectionIdx := by
  unfold removeConnection at hok
  cases h1 : s.m_async_pending
  · by_cases h2 : idx ≥ s.connections.length
    · simp [h1, h2] at hok
    · by_cases h3 : idx = s.m_activeConnectionIdx
      · subst h3; simp [h1, h2] at hok
      · exact ⟨rfl, h2, h3⟩
  · simp [h1] at hok

/-- C1. removeConnection(idx) throws exactly when async-pending is set, or idx is not
below the registry size, or idx is the active cursor; it never ends any other way than
by returning or throwing; and when it throws the whole manager state (registry, cursor,
attempts, both counters, the three flags, everything else) is the state before the
call. -/
theorem removeConnection_fails_iff (s : State) (idx : Nat) :
    ((removeConnection s idx).1 ≠ Outcome.returned ↔
      (s.m_async_pending = true ∨ idx ≥ s.connections.length ∨
        idx = s.m_activeConnectionIdx)) ∧
    ((removeConnection s idx).1 ≠ Outcome.returned →
      (∃ e, (removeConnection s idx).1 = Outcome.threw e) ∧ (removeConnection s idx).2 = s) := by
  unfold removeConnection
  cases h1 : s.m_async_pending
  · by_cases h2 : idx ≥ s.connections.length
    · simp [h2]
    · by_cases h3 : idx = s.m_activeConnectionIdx
      · subst h3; simp [h2]
      · simp only [h2, h3, if_false, Bool.false_eq_true, false_or]
        split <;> simp
  · simp

/-- C1 at two inputs of a manager on [A, B, C] with cursor 1: removing index 1 (the
active one) and index 7 (out of range) both fail and leave the state as it was. -/
theorem removeConnection_fails_iff_witness :
    (removeConnection miningOnB 1).1 ≠ Outcome.returned ∧
    (removeConnection miningOnB 1).2 = miningOnB ∧
    (removeConnection miningOnB 7).2 = miningOnB :=
  ⟨((removeConnection_fails_iff miningOnB 1).1).2 (by decide),
   ((removeConnection_fails_iff miningOnB 1).2 (by decide)).2,
   ((removeConnection_fails_iff miningOnB 7).2 (by decide)).2⟩

/-- C2. With the cursor in range, a successful removeConnection(idx) leaves the
registry with the element at idx erased: one element fewer, the entries before idx
where they were and the later ones moved down by one; the cursor is decremented by
one exactly when it was greater than idx; the endpoint at the cursor is the one that
was at the cursor before, and the cursor is below the new registry size. -/
theorem removeConnection_success (s : State) (idx : Nat)
    (hcur : s.m_activeConnectionIdx < s.connections.length)
    (hok : (removeConnection s idx).1 = Outcome.returned) :
    (removeConnection s idx).2.connections = s.connections.eraseIdx idx ∧
    (removeConnection s idx).2.connections.length + 1 = s.connections.length ∧
    (∀ j, j < idx → (removeConnection s idx).2.connections[j]? = s.connections[j]?) ∧
    (∀ j, idx ≤ j → (removeConnection s idx).2.connections[j]? = s.connections[j + 1]?) ∧
    (removeConnection s idx).2.m_activeConnectionIdx =
      (if s.m_activeConnectionIdx > idx then s.m_activeConnectionIdx - 1
       else s.m_activeConnectionIdx) ∧
    getActiveConnection (removeConnection s idx).2 = getActiveConnection s ∧
    (removeConnection s idx).2.m_activeConnectionIdx <
      (removeConnection s idx).2.connections.length := by
  obtain ⟨h1, h2, h3⟩ := removeConnection_returned_cond s idx hok
  have hlen : (s.connections.eraseIdx idx).length + 1 = s.connections.length := by
    rw [List.length_eraseIdx_of_lt (by omega)]; omega
  have hlt : ∀ j, j < idx → (s.connections.eraseIdx idx)[j]? = s.connections[j]? :=
    fun j hj => List.getElem?_eraseIdx_of_lt _ _ _ hj
  have hge : ∀ j, idx ≤ j → (s.connections.eraseIdx idx)[j]? = s.connections[j + 1]? :=
    fun j hj => List.getElem?_eraseIdx_of_ge _ _ _ hj
  by_cases hgt : s.m_activeConnectionIdx > idx
  · have hr : removeConnection s idx = (Outcome.returned,
        { s.setConnections (s.connections.eraseIdx idx) with
          m_activeConnectionIdx := s.m_activeConnectionIdx - 1 }) := by
      simp [removeConnection, h1, h2, h3, hgt, State.setConnections]
    rw [hr]
    refine ⟨rfl, hlen, hlt, hge, by simp [hgt], ?_, ?_⟩
    · show (s.connections.eraseIdx idx)[s.m_activeConnectionIdx - 1]? = _
      rw [hge _ (by omega)]
      show _ = s.connections[s.m_activeConnectionIdx]?
      congr 1; omega
    · show s.m_activeConnectionIdx - 1 < (s.connections.eraseIdx idx).length
      omega
  · have hr : removeConnection s idx =
        (Outcome.returned, s.setConnections (s.connections.eraseIdx idx)) := by
      simp [removeConnection, h1, h2, h3, hgt, State.setConnections]
    rw [hr]
    refine ⟨rfl, hlen, hlt, hge, by simp [hgt, State.setConnections], ?_, ?_⟩
    · show (s.connections.eraseIdx idx)[s.m_activeConnectionIdx]? = _
      exact hlt _ (by omega)
    · show s.m_activeConnectionIdx < (s.connections.eraseIdx idx).length
      omega

/-- C2 on [A, B, C] with cursor 1: removing index 0 succeeds, the registry becomes
[B, C], the cursor becomes 0 and still designates B. -/
theorem removeConnection_success_witness :
    (removeConnection miningOnB 0).2.connections = [epB, epC] ∧
    (removeConnection miningOnB 0).2.m_activeConnectionIdx = 0 ∧
    getActiveConnection (removeConnection miningOnB 0).2 = some epB :=
  have h := removeConnection_success miningOnB 0 (by decide) (by decide)
  ⟨h.1.trans (by decide), h.2.2.2.2.1.trans (by decide), h.2.2.2.2.2.1.trans (by decide)⟩

/-- C3, evaluated where the code departs from it. On a freshly constructed manager with
registry [A, B] async-pending is clear and index 1 is in range and differs from the
cursor, so C3 asks for a switch to index 1 with a disconnect issued. The code claims
async-pending, counts the switch, moves the cursor and resets attempts, and then calls
`p_client->disconnect()` (line 246) through the empty client pointer: the call does not
return and no disconnect is issued. -/
theorem setActiveConnection_switch_null_client :
    freshAB.m_async_pending = false ∧ 1 < freshAB.connections.length ∧
    1 ≠ freshAB.m_activeConnectionIdx ∧ freshAB.p_client = none ∧
    (setActiveConnection freshAB 1).1 = Outcome.nullClient ∧
    (setActiveConnection freshAB 1).1 ≠ Outcome.returned ∧
    Effect.clientDisconnect ∉ (setActiveConnection freshAB 1).2.effects ∧
    (setActiveConnection freshAB 1).2.m_async_pending = true ∧
    (setActiveConnection freshAB 1).2.m_connectionSwitches = 1 ∧
    (setActiveConnection freshAB 1).2.m_activeConnectionIdx = 1 := by
  decide

/-- Wherever a client exists the switch is carried out in full: with async-pending clear
and idx in range and different from the cursor, setActiveConnection(idx) returns,
connection-switches is incremented by one (in unsigned arithmetic), the cursor is idx,
attempts is 0, exactly one call is issued, a disconnect on the client, the registry and
epoch-changes are unchanged, and async-pending is left set. -/
theorem setActiveConnection_switch_with_client (s : State) (idx : Nat) (c : PoolClient)
    (hclient : s.p_client = some c)
    (hpend : s.m_async_pending = false)
    (hidx : idx < s.connections.length)
    (hne : idx ≠ s.m_activeConnectionIdx) :
    (setActiveConnection s idx).1 = Outcome.returned ∧
    (setActiveConnection s idx).2.m_connectionSwitches =
      (s.m_connectionSwitches + 1) % UINT_MOD ∧
    (setActiveConnection s idx).2.m_activeConnectionIdx = idx ∧
    (setActiveConnection s idx).2.m_connectionAttempt = 0 ∧
    (setActiveConnection s idx).2.effects = s.effects ++ [Effect.clientDisconnect] ∧
    (setActiveConnection s idx).2.m_Settings = s.m_Settings ∧
    (setActiveConnection s idx).2.m_epochChanges = s.m_epochChanges ∧
    (setActiveConnection s idx).2.p_client = s.p_client ∧
    (setActiveConnection s idx).2.m_async_pending = true := by
  have hlen : ¬ idx ≥ s.connections.length := by omega
  simp [setActiveConnection, setActiveConnectionCommon, hlen, hpend, hne, hclient,
    State.bumpSwitches, State.emit]

/-- The switch on [A, B, C] with a connected client on B: selecting index 2 moves the
cursor to 2, counts the third switch and disconnects the client. -/
theorem setActiveConnection_switch_with_client_instance :
    (setActiveConnection miningOnB 2).1 = Outcome.returned ∧
    (setActiveConnection miningOnB 2).2.m_connectionSwitches = 3 ∧
    (setActiveConnection miningOnB 2).2.m_activeConnectionIdx = 2 ∧
    (setActiveConnection miningOnB 2).2.effects = [Effect.clientDisconnect] :=
  have h := setActiveConnection_switch_with_client miningOnB 2 (connectedClient epB)
    (by decide) (by decide) (by decide) (by decide)
  ⟨h.1, h.2.1.trans (by decide), h.2.2.1, h.2.2.2.2.1.trans (by decide)⟩

/-- C4. Select-same-noop: with the cursor in range, setActiveConnection(cursor) either
throws (async-pending was set) or returns; in both cases cursor, attempts,
connection-switches, epoch-changes and registry are unchanged and no call is issued to
a collaborator; it returns exactly when async-pending was clear, and then the whole
state, async-pending included, is as before (the flag is clear again). -/
theorem setActiveConnection_same_noop (s : State)
    (hcur : s.m_activeConnectionIdx < s.connections.length) :
    (setActiveConnection s s.m_activeConnectionIdx).2.m_activeConnectionIdx =
      s.m_activeConnectionIdx ∧
    (setActiveConnection s s.m_activeConnectionIdx).2.m_connectionAttempt =
      s.m_connectionAttempt ∧
    (setActiveConnection s s.m_activeConnectionIdx).2.m_connectionSwitches =
      s.m_connectionSwitches ∧
    (setActiveConnection s s.m_activeConnectionIdx).2.m_epochChanges = s.m_epochChanges ∧
    (setActiveConnection s s.m_activeConnectionIdx).2.m_Settings = s.m_Settings ∧
    (setActiveConnection s s.m_activeConnectionIdx).2.effects = s.effects ∧
    ((setActiveConnection s s.m_activeConnectionIdx).1 = Outcome.returned ↔
      s.m_async_pending = false) ∧
    ((setActiveConnection s s.m_activeConnectionIdx).1 = Outcome.returned →
      (setActiveConnection s s.m_activeConnectionIdx).2.m_async_pending = false ∧
      (setActiveConnection s s.m_activeConnectionIdx).2 = s) := by
  have hlen : ¬ s.m_activeConnectionIdx ≥ s.connections.length := by omega
  cases hp : s.m_async_pending
  · have hs : { s with m_async_pending := false } = s := by
      cases s; simp_all
    simp [setActiveConnection, setActiveConnectionCommon, hlen, hp, hs]
  · simp [setActiveConnection, setActiveConnectionCommon, hlen, hp]

/-- C4 on [A, B, C] with cursor 1 and nothing pending: selecting index 1 returns and
changes nothing. -/
theorem setActiveConnection_same_noop_witness :
    (setActiveConnection miningOnB 1).1 = Outcome.returned ∧
    (setActiveConnection miningOnB 1).2 = miningOnB :=
  have h := setActiveConnection_same_noop miningOnB (by decide)
  ⟨h.2.2.2.2.2.2.1.2 (by decide), (h.2.2.2.2.2.2.2 (h.2.2.2.2.2.2.1.2 (by decide))).2⟩

/-- C5, evaluated where the code departs from it. On a freshly constructed manager with
registry [A, B], index 1 is in range and async-pending is clear, so by C5 the call must
not fail. The code passes both guards, writes async-pending, connection-switches, the
cursor and attempts, and then fails at `p_client->disconnect()` (line 246) through the
empty client pointer: the call does not return although neither failure condition
holds, and the state it leaves differs from the state before the call. -/
theorem setActiveConnection_fails_null_client :
    ¬ (1 ≥ freshAB.connections.length ∨ freshAB.m_async_pending = true) ∧
    (setActiveConnection freshAB 1).1 ≠ Outcome.returned ∧
    (setActiveConnection freshAB 1).2 ≠ freshAB ∧
    (setActiveConnection freshAB 1).2.m_activeConnectionIdx ≠ freshAB.m_activeConnectionIdx ∧
    (setActiveConnection freshAB 1).2.m_connectionSwitches ≠ freshAB.m_connectionSwitches ∧
    (setActiveConnection freshAB 1).2.m_async_pending ≠ freshAB.m_async_pending := by
  decide

/-- The two guards of setActiveConnection: it throws exactly when idx is not below the
registry size or async-pending is already set, and when it throws the whole state is
the state before the call. -/
theorem setActiveConnection_throws_iff (s : State) (idx : Nat) :
    ((∃ e, (setActiveConnection s idx).1 = Outcome.threw e) ↔
      (idx ≥ s.connections.length ∨ s.m_async_pending = true)) ∧
    ((∃ e, (setActiveConnection s idx).1 = Outcome.threw e) →
      (setActiveConnection s idx).2 = s) := by
  unfold setActiveConnection setActiveConnectionCommon
  by_cases h1 : idx ≥ s.connections.length
  · simp [h1]
  · cases hp : s.m_async_pending
    · by_cases h2 : idx = s.m_activeConnectionIdx
      · subst h2; simp [h1]
      · cases hc : s.p_client <;> simp [h1, h2, hc, State.bumpSwitches]
    · simp [h1]

/-- Wherever a client exists, setActiveConnection fails (does not return) exactly when
idx is not below the registry size or async-pending is already set, it then throws, and
the whole state is the state before the call. -/
theorem setActiveConnection_fails_iff_with_client (s : State) (idx : Nat) (c : PoolClient)
    (hclient : s.p_client = some c) :
    ((setActiveConnection s idx).1 ≠ Outcome.returned ↔
      (idx ≥ s.connections.length ∨ s.m_async_pending = true)) ∧
    ((setActiveConnection s idx).1 ≠ Outcome.returned →
      (∃ e, (setActiveConnection s idx).1 = Outcome.threw e) ∧
      (setActiveConnection s idx).2 = s) := by
  unfold setActiveConnection setActiveConnectionCommon
  by_cases h1 : idx ≥ s.connections.length
  · simp [h1]
  · cases hp : s.m_async_pending
    · by_cases h2 : idx = s.m_activeConnectionIdx
      · subst h2; simp [h1]
      · simp [h1, h2, hclient, State.bumpSwitches]
    · simp [h1]

/-- The guards on [A, B, C] with a connected client: index 3 is out of range, the call
throws and the state is untouched. -/
theorem setActiveConnection_fails_iff_with_client_instance :
    (setActiveConnection miningOnB 3).1 ≠ Outcome.returned ∧
    (setActiveConnection miningOnB 3).2 = miningOnB :=
  have h := setActiveConnection_fails_iff_with_client miningOnB 3 (connectedClient epB)
    (by decide)
  ⟨h.1.2 (by decide), (h.2 (h.1.2 (by decide))).2⟩

/-- The search loop finds the lowest matching position. -/
theorem findConnection_lowest (cs : String) :
    ∀ (l : List URI) (k i : Nat) (u : URI), l[i]? = some u → iequals u.str cs = true →
      (∀ j v, j < i → l[j]? = some v → iequals v.str cs = false) →
      findConnection cs l k = some (k + i) := by
  intro l
  induction l with
  | nil => intro k i u h; simp at h
  | cons a rest ih =>
    intro k i u h hm hlow
    cases i with
    | zero =>
      have ha : a = u := by simpa using h
      subst ha
      simp [findConnection, hm]
    | succ i =>
      have ha : iequals a.str cs = false := hlow 0 a (by omega) (by simp)
      have hrest : rest[i]? = some u := by simpa using h
      have := ih (k + 1) i u hrest hm (fun j v hj hv => hlow (j + 1) v (by omega) (by simpa using hv))
      simp [findConnection, ha, this]
      omega

/-- The search loop finds nothing when no entry matches. -/
theorem findConnection_none (cs : String) :
    ∀ (l : List URI) (k : Nat), (∀ u ∈ l, iequals u.str cs = false) →
      findConnection cs l k = none := by
  intro l
  induction l with
  | nil => intro k _; rfl
  | cons a rest ih =>
    intro k h
    have ha : iequals a.str cs = false := h a (by simp)
    simp [findConnection, ha, ih (k + 1) (fun u hu => h u (by simp [hu]))]

/-- The code point of `Char.ofNat n` for a small n. -/
theorem toNat_ofNat_small (n : Nat) (h : n < 55296) : (Char.ofNat n).toNat = n := by
  have hv : n.isValidChar := Or.inl h
  unfold Char.ofNat
  rw [dif_pos hv]
  rfl

/-- Upper-casing moves the code points 97..122 down by 32 and fixes the others. -/
theorem toUpper_toNat (c : Char) :
    c.toUpper.toNat = if 97 ≤ c.toNat ∧ c.toNat ≤ 122 then c.toNat - 32 else c.toNat := by
  unfold Char.toUpper
  by_cases h : 97 ≤ c.toNat ∧ c.toNat ≤ 122
  · simp only [ge_iff_le, h, and_self, if_true]
    exact toNat_ofNat_small _ (by omega)
  · simp only [ge_iff_le, h, if_false]

/-- Lower-casing moves the code points 65..90 up by 32 and fixes the others. -/
theorem toLower_toNat (c : Char) :
    c.toLower.toNat = if 65 ≤ c.toNat ∧ c.toNat ≤ 90 then c.toNat + 32 else c.toNat := by
  unfold Char.toLower
  by_cases h : 65 ≤ c.toNat ∧ c.toNat ≤ 90
  · simp only [ge_iff_le, h, and_self, if_true]
    exact toNat_ofNat_small _ (by omega)
  · simp only [ge_iff_le, h, if_false]

/-- Characters are equal when their code points are. -/
theorem char_eq_iff_toNat (c d : Char) : c = d ↔ c.toNat = d.toNat := by
  constructor
  · intro h; rw [h]
  · intro h
    have := congrArg Char.ofNat h
    simpa using this

/-- Two characters have the same upper-case form exactly when they have the same
lower-case form. -/
theorem toUpper_eq_iff_toLower_eq (c d : Char) :
    c.toUpper = d.toUpper ↔ c.toLower = d.toLower := by
  rw [char_eq_iff_toNat, char_eq_iff_toNat, toUpper_toNat, toUpper_toNat, toLower_toNat,
    toLower_toNat]
  split <;> split <;> split <;> split <;> omega

/-- Upper-casing and lower-casing identify the same lists of characters. -/
theorem map_toUpper_eq_iff (l₁ : List Char) :
    ∀ l₂ : List Char, l₁.map Char.toUpper = l₂.map Char.toUpper ↔
      l₁.map Char.toLower = l₂.map Char.toLower := by
  induction l₁ with
  | nil => intro l₂; cases l₂ <;> simp
  | cons c l₁ ih =>
    intro l₂
    cases l₂ with
    | nil => simp
    | cons d l₂ =>
      simp only [List.map_cons, List.cons.injEq, toUpper_eq_iff_toLower_eq c d, ih l₂]

/-- The comparison of the code, `iequals`, is equality ignoring letter case. -/
theorem iequals_iff (a b : String) : iequals a b = true ↔ equalIgnoringCase a b := by
  unfold iequals equalIgnoringCase
  rw [beq_iff_eq]
  exact map_toUpper_eq_iff a.data b.data

/-- C6. setActiveConnection(uri) matches case-insensitively. If the canonical string of
entry i equals uri ignoring letter case, no entry before i does, and i is a value of the
unsigned index type, the call equals setActiveConnection(i) in outcome and resulting
state. If no entry matches, it throws the not-found error and the state, async-pending
included, is the state before the call. -/
theorem setActiveConnectionStr_refines (s : State) (uri : String) :
    (∀ i u, i < UINT_MOD → s.connections[i]? = some u → equalIgnoringCase u.str uri →
      (∀ j v, j < i → s.connections[j]? = some v → ¬ equalIgnoringCase v.str uri) →
      setActiveConnectionStr s uri = setActiveConnection s i) ∧
    ((∀ u ∈ s.connections, ¬ equalIgnoringCase u.str uri) →
      setActiveConnectionStr s uri = (Outcome.threw Exn.NotFound, s)) := by
  have hneg : ∀ v : URI, ¬ equalIgnoringCase v.str uri → iequals v.str uri = false := by
    intro v h
    cases hi : iequals v.str uri
    · rfl
    · exact absurd ((iequals_iff _ _).mp hi) h
  constructor
  · intro i u hi hu hm hlow
    have hf := findConnection_lowest uri s.connections 0 i u hu ((iequals_iff _ _).mpr hm)
      (fun j v hj hv => hneg v (hlow j v hj hv))
    have hlt : i < s.connections.length := by
      rcases Nat.lt_or_ge i s.connections.length with h | h
      · exact h
      · rw [List.getElem?_eq_none h] at hu; cases hu
    have hge : ¬ i ≥ s.connections.length := by omega
    simp only [setActiveConnectionStr, hf, Nat.zero_add, setActiveConnection, hge, if_false,
      Nat.mod_eq_of_lt hi]
  · intro h
    simp only [setActiveConnectionStr,
      findConnection_none uri s.connections 0 (fun u hu => hneg u (h u hu))]

/-- C6 on [A, B, C] with cursor 1: the upper-case spelling of the URI of C selects
index 2, and an unknown URI is rejected without touching the state. -/
theorem setActiveConnectionStr_refines_witness :
    setActiveConnectionStr miningOnB "STRATUM://C.POOL:4444" = setActiveConnection miningOnB 2 ∧
    setActiveConnectionStr miningOnB "stratum://d.pool:4444" =
      (Outcome.threw Exn.NotFound, miningOnB) :=
  ⟨(setActiveConnectionStr_refines miningOnB "STRATUM://C.POOL:4444").1 2 epC (by decide)
      (by decide) (by decide)
      (fun j v hj hv => by
        have hj2 : j = 0 ∨ j = 1 := by omega
        rcases hj2 with rfl | rfl
        · have hv0 : [epA, epB, epC][0]? = some v := hv
          have : epA = v := by simpa using hv0
          subst this; decide
        · have hv1 : [epA, epB, epC][1]? = some v := hv
          have : epB = v := by simpa using hv1
          subst this; decide),
   (setActiveConnectionStr_refines miningOnB "stratum://d.pool:4444").2 (by decide)⟩

/-- The JSON loop produces one entry per endpoint. -/
theorem getConnectionsJsonFrom_length (cursor : Nat) :
    ∀ (l : List URI) (k : Nat), (getConnectionsJsonFrom cursor l k).length = l.length := by
  intro l
  induction l with
  | nil => intro k; rfl
  | cons a rest ih => intro k; simp [getConnectionsJsonFrom, ih]

/-- Entry i of the JSON loop started at index k. -/
theorem getConnectionsJsonFrom_getElem (cursor : Nat) :
    ∀ (l : List URI) (k i : Nat) (u : URI), l[i]? = some u →
      (getConnectionsJsonFrom cursor l k)[i]? =
        some { index := (k + i) % UINT_MOD, active := decide (k + i = cursor), uri := u.str } := by
  intro l
  induction l with
  | nil => intro k i u h; simp at h
  | cons a rest ih =>
    intro k i u h
    cases i with
    | zero =>
      have ha : a = u := by simpa using h
      subst ha
      simp [getConnectionsJsonFrom]
    | succ i =>
      have hrest : rest[i]? = some u := by simpa using h
      have := ih (k + 1) i u hrest
      simp only [getConnectionsJsonFrom, List.getElem?_cons_succ, this]
      have e : k + 1 + i = k + (i + 1) := by omega
      rw [e]

/-- The entries flagged active by the JSON loop started at index k: one when the
cursor falls in the range of the loop, none otherwise. -/
theorem getConnectionsJsonFrom_active (cursor : Nat) :
    ∀ (l : List URI) (k : Nat),
      ((getConnectionsJsonFrom cursor l k).filter (fun e => e.active)).length =
        (if k ≤ cursor ∧ cursor < k + l.length then 1 else 0) := by
  intro l
  induction l with
  | nil =>
    intro k
    have h : ¬ (k ≤ cursor ∧ cursor < k + ([] : List URI).length) := by
      simp only [List.length_nil]; omega
    rw [if_neg h]; rfl
  | cons a rest ih =>
    intro k
    by_cases hk : k = cursor
    · subst hk
      have h0 : ¬ (k + 1 ≤ k ∧ k < k + 1 + rest.length) := by omega
      have h1 : k ≤ k ∧ k < k + (a :: rest).length := by
        simp only [List.length_cons]; omega
      rw [if_pos h1]
      simp only [getConnectionsJsonFrom, decide_True, List.filter_cons_of_pos,
        List.length_cons, ih, if_neg h0]
    · have hf : List.filter (fun e => e.active) (getConnectionsJsonFrom cursor (a :: rest) k) =
          List.filter (fun e => e.active) (getConnectionsJsonFrom cursor rest (k + 1)) := by
        simp [getConnectionsJsonFrom, hk]
      rw [hf, ih]
      by_cases h : k + 1 ≤ cursor ∧ cursor < k + 1 + rest.length
      · rw [if_pos h, if_pos (by simp only [List.length_cons]; omega)]
      · rw [if_neg h, if_neg (by simp only [List.length_cons]; omega)]

/-- C7. When the cursor is below the registry size whenever the registry is non-empty
(and the registry indices fit the unsigned type used for the `index` field),
getConnectionsJson() has one entry per endpoint, entry i carrying index i, the flag
`i == cursor` and the URI string of endpoint i; the number of entries flagged active is
1 exactly when the registry is non-empty; and in that case the only active entry is the
one at the cursor, carrying the URI of the endpoint that getActiveConnection()
returns. -/
theorem getConnectionsJson_spec (s : State)
    (hinv : s.connections ≠ [] → s.m_activeConnectionIdx < s.connections.length)
    (hfit : s.connections.length ≤ UINT_MOD) :
    (getConnectionsJson s).length = s.connections.length ∧
    (∀ i u, s.connections[i]? = some u →
      (getConnectionsJson s)[i]? =
        some (JConn.mk i (decide (i = s.m_activeConnectionIdx)) u.str)) ∧
    (((getConnectionsJson s).filter (fun e => e.active)).length = 1 ↔ s.connections ≠ []) ∧
    (s.connections ≠ [] → ∃ u, getActiveConnection s = some u ∧
      (getConnectionsJson s).filter (fun e => e.active) =
        [JConn.mk s.m_activeConnectionIdx true u.str]) := by
  have hentry : ∀ i u, s.connections[i]? = some u →
      (getConnectionsJson s)[i]? =
        some (JConn.mk i (decide (i = s.m_activeConnectionIdx)) u.str) := by
    intro i u hu
    have hlt : i < s.connections.length := by
      rcases Nat.lt_or_ge i s.connections.length with h | h
      · exact h
      · rw [List.getElem?_eq_none h] at hu; cases hu
    have h := getConnectionsJsonFrom_getElem s.m_activeConnectionIdx s.connections 0 i u hu
    simp only [Nat.zero_add] at h
    rw [Nat.mod_eq_of_lt (by omega)] at h
    exact h
  have hcount := getConnectionsJsonFrom_active s.m_activeConnectionIdx s.connections 0
  simp only [Nat.zero_add, Nat.zero_le, true_and] at hcount
  have hiff : ((getConnectionsJson s).filter (fun e => e.active)).length = 1 ↔
      s.connections ≠ [] := by
    unfold getConnectionsJson
    rw [hcount]
    constructor
    · intro h hnil
      rw [hnil] at h
      simp at h
    · intro hne
      rw [if_pos (hinv hne)]
  refine ⟨getConnectionsJsonFrom_length _ _ _, hentry, hiff, ?_⟩
  intro hne
  have hc := hinv hne
  have hget : s.connections[s.m_activeConnectionIdx]? =
      some (s.connections[s.m_activeConnectionIdx]) := List.getElem?_eq_getElem hc
  refine ⟨s.connections[s.m_activeConnectionIdx], hget, ?_⟩
  have he := hentry _ _ hget
  simp only [decide_True] at he
  obtain ⟨x, hx⟩ := List.length_eq_one.mp (hiff.mpr hne)
  have hmem : JConn.mk s.m_activeConnectionIdx true (s.connections[s.m_activeConnectionIdx]).str ∈
      (getConnectionsJson s).filter (fun e => e.active) := by
    rw [List.mem_filter]
    exact ⟨List.getElem?_mem he, rfl⟩
  rw [hx] at hmem ⊢
  rw [List.mem_singleton] at hmem
  rw [hmem]

/-- C7 on [A, B, C] with cursor 1: three entries, and the only active one is the entry
of B with index 1. -/
theorem getConnectionsJson_spec_witness :
    (getConnectionsJson miningOnB).length = 3 ∧
    ∃ u, getActiveConnection miningOnB = some u ∧
      (getConnectionsJson miningOnB).filter (fun e => e.active) =
        [JConn.mk 1 true u.str] :=
  have h := getConnectionsJson_spec miningOnB (fun _ => by decide) (by decide)
  ⟨h.1.trans (by decide), h.2.2.2 (by decide)⟩

/-! ## rotateConnect -/

/-- The terminal path in one equation. -/
theorem terminateStep_eq (s : State) :
    terminateStep s = (Outcome.returned,
      { s with farm := { s.farm with isMining := false }, m_running := false,
               effects := s.effects ++ (if s.farm.isMining then [Effect.farmStop] else []) ++
                 [Effect.raiseSIGTERM] }) := by
  unfold terminateStep
  cases h : s.farm.isMining
  · have hf : ({ s.farm with isMining := false } : Farm) = s.farm := by
      cases hs : s.farm; simp_all
    simp [State.emit, hf]
  · simp [State.emit]

/-- The connection attempt, field by field. -/
theorem connectStep_fields (s : State) (u : URI) :
    (connectStep s u).1 = Outcome.returned ∧
    (connectStep s u).2.m_Settings = s.m_Settings ∧
    (connectStep s u).2.m_activeConnectionIdx = s.m_activeConnectionIdx ∧
    (connectStep s u).2.m_connectionAttempt = (s.m_connectionAttempt + 1) % UINT_MOD ∧
    (connectStep s u).2.m_connectionSwitches = s.m_connectionSwitches ∧
    (connectStep s u).2.m_running = s.m_running ∧
    (∃ cl, (connectStep s u).2.p_client = some cl ∧ cl.getConnection = some u ∧
      cl.isConnected = false) ∧
    (∃ k, (connectStep s u).2.effects =
      s.effects ++ (if s.p_client.isSome then [Effect.clientDestroy] else []) ++
        [Effect.clientNew k, Effect.clientSetConnection u,
         if (s.m_connectionAttempt + 1) % UINT_MOD > 1 ∧ s.m_Settings.delayBeforeRetry > 0
         then Effect.reconnectArm s.m_Settings.delayBeforeRetry else Effect.clientConnect]) := by
  unfold connectStep constructClient
  cases hf : u.Family <;> cases hc : s.p_client <;>
    by_cases hd : (s.m_connectionAttempt + 1) % UINT_MOD > 1 ∧ s.m_Settings.delayBeforeRetry > 0 <;>
    simp [State.emit, PoolClient.fresh, hd]

/-- The bounds check of lines 307-308 in one equation. -/
theorem clampIdx_eq (s : State) :
    s.clampIdx = { s with m_activeConnectionIdx :=
      if s.m_activeConnectionIdx < s.connections.length then s.m_activeConnectionIdx else 0 } := by
  unfold State.clampIdx
  by_cases h : s.m_activeConnectionIdx < s.connections.length
  · have h2 : ¬ s.m_activeConnectionIdx ≥ s.connections.length := by omega
    simp [h, h2]
  · have h2 : s.m_activeConnectionIdx ≥ s.connections.length := by omega
    simp [h, h2]

/-- With no connected client, rotateConnect reads the endpoint at the clamped cursor
and continues with the discard, rotate and connect-or-terminate steps. -/
theorem rotateConnect_eq (s : State) (c : Nat) (u : URI)
    (hnc : s.clientConnected = false)
    (hc : c = if s.m_activeConnectionIdx < s.connections.length then s.m_activeConnectionIdx
      else 0)
    (hu : s.connections[c]? = some u) :
    rotateConnect s = connectOrTerminate (rotateStep (discardStep
      { s with m_activeConnectionIdx := c } u)) := by
  unfold rotateConnect
  rw [clampIdx_eq, ← hc]
  simp only [hnc, Bool.false_eq_true, if_false]
  have : ({ s with m_activeConnectionIdx := c } : State).connections = s.connections := rfl
  simp only [this, hu]

/-- The discard step on an unrecoverable endpoint. -/
theorem discardStep_unrecoverable (s : State) (u : URI) (hun : u.IsUnrecoverable = true) :
    discardStep s u =
      { s with m_Settings := { s.m_Settings with
                 connections := s.connections.eraseIdx s.m_activeConnectionIdx },
               m_connectionAttempt := 0,
               m_activeConnectionIdx :=
                 if s.m_activeConnectionIdx < (s.connections.eraseIdx s.m_activeConnectionIdx).length
                 then s.m_activeConnectionIdx else 0,
               m_connectionSwitches := (s.m_connectionSwitches + 1) % UINT_MOD } := by
  unfold discardStep
  simp only [hun, if_true, clampIdx_eq]
  rfl

/-- The rotate step does nothing while the attempts are below a positive threshold,
or when the threshold is 0. -/
theorem rotateStep_idle (s : State)
    (h : s.m_Settings.connectionMaxRetries = 0 ∨
      s.m_connectionAttempt < s.m_Settings.connectionMaxRetries) :
    rotateStep s = s := by
  unfold rotateStep
  have : ¬ (¬ s.connections.isEmpty = true ∧ s.m_Settings.connectionMaxRetries ≠ 0 ∧
      s.m_connectionAttempt ≥ s.m_Settings.connectionMaxRetries) := by
    rintro ⟨_, h1, h2⟩
    rcases h with h | h
    · exact h1 h
    · omega
  rw [if_neg this]

/-- The rotate step does nothing on an empty registry. -/
theorem rotateStep_empty (s : State) (h : s.connections = []) : rotateStep s = s := by
  unfold rotateStep
  have : ¬ (¬ s.connections.isEmpty = true ∧ s.m_Settings.connectionMaxRetries ≠ 0 ∧
      s.m_connectionAttempt ≥ s.m_Settings.connectionMaxRetries) := by
    rintro ⟨h0, _, _⟩
    exact h0 (by rw [h]; rfl)
  rw [if_neg this]

/-- The rotate step when the attempts reached a positive threshold on a non-empty
registry. -/
theorem rotateStep_rotate (s : State) (hne : s.connections ≠ [])
    (hm : s.m_Settings.connectionMaxRetries ≠ 0)
    (ha : s.m_connectionAttempt ≥ s.m_Settings.connectionMaxRetries) :
    rotateStep s =
      { s with m_connectionAttempt := 0,
               m_activeConnectionIdx :=
                 if (s.m_activeConnectionIdx + 1) % UINT_MOD < s.connections.length
                 then (s.m_activeConnectionIdx + 1) % UINT_MOD else 0,
               m_connectionSwitches := (s.m_connectionSwitches + 1) % UINT_MOD } := by
  unfold rotateStep
  have : (¬ s.connections.isEmpty = true ∧ s.m_Settings.connectionMaxRetries ≠ 0 ∧
      s.m_connectionAttempt ≥ s.m_Settings.connectionMaxRetries) := by
    refine ⟨?_, hm, ha⟩
    cases hl : s.connections with
    | nil => exact absurd hl hne
    | cons a l => simp
  rw [if_pos this, clampIdx_eq]
  rfl

/-- The last step connects when the endpoint at the cursor is not the sentinel. -/
theorem connectOrTerminate_connect (s : State) (v : URI)
    (hv : s.connections[s.m_activeConnectionIdx]? = some v) (hhost : v.Host ≠ "exit") :
    connectOrTerminate s = connectStep s v := by
  unfold connectOrTerminate
  have hne : s.connections.isEmpty = false := by
    cases hl : s.connections with
    | nil => rw [hl] at hv; simp at hv
    | cons a l => rfl
  simp only [hne, Bool.false_eq_true, if_false, hv, ne_eq, hhost, not_false_eq_true, if_true]

/-- The last step terminates when the registry is empty or the endpoint at the cursor
is the sentinel. -/
theorem connectOrTerminate_terminate (s : State)
    (h : s.connections = [] ∨
      ∃ v, s.connections[s.m_activeConnectionIdx]? = some v ∧ v.Host = "exit") :
    connectOrTerminate s = terminateStep s := by
  unfold connectOrTerminate
  rcases h with h | ⟨v, hv, hhost⟩
  · have : s.connections.isEmpty = true := by rw [h]; rfl
    simp only [this, if_true]
  · have hne : s.connections.isEmpty = false := by
      cases hl : s.connections with
      | nil => rw [hl] at hv; simp at hv
      | cons a l => rfl
    simp only [hne, Bool.false_eq_true, if_false, hv, ne_eq, hhost, not_true_eq_false]

/-- The last step always returns when the cursor is in range or the registry is
empty, and it never touches the registry, the settings, the cursor or
connection-switches. -/
theorem connectOrTerminate_frame (s : State)
    (h : s.connections = [] ∨ s.m_activeConnectionIdx < s.connections.length) :
    (connectOrTerminate s).1 = Outcome.returned ∧
    (connectOrTerminate s).2.m_Settings = s.m_Settings ∧
    (connectOrTerminate s).2.m_activeConnectionIdx = s.m_activeConnectionIdx ∧
    (connectOrTerminate s).2.m_connectionSwitches = s.m_connectionSwitches := by
  by_cases hnil : s.connections = []
  · rw [connectOrTerminate_terminate s (Or.inl hnil), terminateStep_eq]
    exact ⟨rfl, rfl, rfl, rfl⟩
  · have hlt : s.m_activeConnectionIdx < s.connections.length := by
      rcases h with h | h
      · exact absurd h hnil
      · exact h
    have hv := List.getElem?_eq_getElem hlt
    by_cases hhost : (s.connections[s.m_activeConnectionIdx]).Host = "exit"
    · rw [connectOrTerminate_terminate s (Or.inr ⟨_, hv, hhost⟩), terminateStep_eq]
      exact ⟨rfl, rfl, rfl, rfl⟩
    · rw [connectOrTerminate_connect s _ hv hhost]
      have hf := connectStep_fields s (s.connections[s.m_activeConnectionIdx])
      exact ⟨hf.1, hf.2.1, hf.2.2.1, hf.2.2.2.2.1⟩

/-- C8. With no connected client and the endpoint u at the clamped cursor c marked
unrecoverable, rotateConnect returns; the registry is the old one with the entry at c
erased (one element fewer, earlier entries in place, later entries moved down by one);
connection-switches is incremented by one (in unsigned arithmetic) whatever the values
of attempts and max-retries; the cursor is c, or 0 when c is past the end of the new
registry. If the endpoint now at the cursor is not the sentinel, a client is connected
to it and attempts is 1; if the registry became empty or that endpoint is the sentinel,
attempts is 0 and the manager terminates. -/
theorem rotateConnect_unrecoverable (s : State) (c : Nat) (u : URI)
    (hnc : s.clientConnected = false)
    (hc : c = if s.m_activeConnectionIdx < s.connections.length then s.m_activeConnectionIdx
      else 0)
    (hu : s.connections[c]? = some u)
    (hun : u.IsUnrecoverable = true) :
    (rotateConnect s).1 = Outcome.returned ∧
    (rotateConnect s).2.connections = s.connections.eraseIdx c ∧
    (rotateConnect s).2.connections.length + 1 = s.connections.length ∧
    (∀ j, j < c → (rotateConnect s).2.connections[j]? = s.connections[j]?) ∧
    (∀ j, c ≤ j → (rotateConnect s).2.connections[j]? = s.connections[j + 1]?) ∧
    (rotateConnect s).2.m_connectionSwitches = (s.m_connectionSwitches + 1) % UINT_MOD ∧
    (rotateConnect s).2.m_activeConnectionIdx =
      (if c < (s.connections.eraseIdx c).length then c else 0) ∧
    (∀ v, (rotateConnect s).2.connections[(rotateConnect s).2.m_activeConnectionIdx]? = some v →
      v.Host ≠ "exit" →
      (rotateConnect s).2.m_connectionAttempt = 1 ∧
      ∃ cl, (rotateConnect s).2.p_client = some cl ∧ cl.getConnection = some v) ∧
    (((rotateConnect s).2.connections = [] ∨
      ∃ v, (rotateConnect s).2.connections[(rotateConnect s).2.m_activeConnectionIdx]? = some v ∧
        v.Host = "exit") →
      (rotateConnect s).2.m_connectionAttempt = 0 ∧ (rotateConnect s).2.m_running = false ∧
      (rotateConnect s).2.p_client = s.p_client ∧
      (rotateConnect s).2.effects = s.effects ++
        (if s.farm.isMining then [Effect.farmStop] else []) ++ [Effect.raiseSIGTERM]) := by
  have hclt : c < s.connections.length := by
    rcases Nat.lt_or_ge c s.connections.length with h | h
    · exact h
    · rw [List.getElem?_eq_none h] at hu; cases hu
  have hR := rotateConnect_eq s c u hnc hc hu
  rw [discardStep_unrecoverable _ _ hun] at hR
  rw [rotateStep_idle _ (by
    show s.m_Settings.connectionMaxRetries = 0 ∨ 0 < s.m_Settings.connectionMaxRetries
    omega)] at hR
  generalize ht : ({ ({ s with m_activeConnectionIdx := c } : State) with
      m_Settings := { s.m_Settings with connections := s.connections.eraseIdx c },
      m_connectionAttempt := 0,
      m_activeConnectionIdx := if c < (s.connections.eraseIdx c).length then c else 0,
      m_connectionSwitches := (s.m_connectionSwitches + 1) % UINT_MOD } : State) = t at hR
  have htc : t.connections = s.connections.eraseIdx c := by rw [← ht]
  have hti : t.m_activeConnectionIdx = if c < (s.connections.eraseIdx c).length then c else 0 := by
    rw [← ht]
  have hts : t.m_connectionSwitches = (s.m_connectionSwitches + 1) % UINT_MOD := by rw [← ht]
  have hta : t.m_connectionAttempt = 0 := by rw [← ht]
  have htp : t.p_client = s.p_client := by rw [← ht]
  have hte : t.effects = s.effects := by rw [← ht]
  have htf : t.farm = s.farm := by rw [← ht]
  have hwf : t.connections = [] ∨ t.m_activeConnectionIdx < t.connections.length := by
    rw [hti, htc]
    by_cases h : c < (s.connections.eraseIdx c).length
    · right; rw [if_pos h]; exact h
    · rw [if_neg h]
      cases hl : s.connections.eraseIdx c with
      | nil => left; rfl
      | cons a l => right; simp
  have hfr := connectOrTerminate_frame t hwf
  have hconn : (rotateConnect s).2.connections = s.connections.eraseIdx c := by
    rw [hR]; show (connectOrTerminate t).2.m_Settings.connections = _
    rw [hfr.2.1]; exact htc
  have hidx : (rotateConnect s).2.m_activeConnectionIdx = t.m_activeConnectionIdx := by
    rw [hR]; exact hfr.2.2.1
  have hlen : (s.connections.eraseIdx c).length + 1 = s.connections.length := by
    rw [List.length_eraseIdx_of_lt hclt]; omega
  refine ⟨by rw [hR]; exact hfr.1, hconn, by rw [hconn]; exact hlen, ?_, ?_,
    by rw [hR, hfr.2.2.2, hts], by rw [hidx, hti], ?_, ?_⟩
  · intro j hj; rw [hconn]; exact List.getElem?_eraseIdx_of_lt _ _ _ hj
  · intro j hj; rw [hconn]; exact List.getElem?_eraseIdx_of_ge _ _ _ hj
  · intro v hv hhost
    rw [hconn, hidx, ← htc] at hv
    rw [hR, connectOrTerminate_connect t v hv hhost]
    have hf := connectStep_fields t v
    refine ⟨?_, ?_⟩
    · rw [hf.2.2.2.1, hta]; rfl
    · obtain ⟨cl, h1, h2, _⟩ := hf.2.2.2.2.2.2.1
      exact ⟨cl, h1, h2⟩
  · intro h
    rw [hconn, hidx, ← htc] at h
    rw [hR, connectOrTerminate_terminate t h, terminateStep_eq]
    refine ⟨hta, rfl, htp, ?_⟩
    show t.effects ++ _ ++ _ = _
    rw [hte, htf]

/-- C8 on the scenario registry [A, B] with A unrecoverable, after start(): A is
removed, the registry is [B], the cursor is 0, a second switch is counted and the
first attempt on B is under way. -/
theorem rotateConnect_unrecoverable_witness :
    (rotateConnect startedDeadFirst).2.connections = [epB] ∧
    (rotateConnect startedDeadFirst).2.m_activeConnectionIdx = 0 ∧
    (rotateConnect startedDeadFirst).2.m_connectionSwitches = 2 ∧
    (rotateConnect startedDeadFirst).2.m_connectionAttempt = 1 :=
  have h := rotateConnect_unrecoverable startedDeadFirst 0 epDead (by decide) (by decide)
    (by decide) (by decide)
  ⟨h.2.1.trans (by decide), h.2.2.2.2.2.2.1.trans (by decide),
   h.2.2.2.2.2.1.trans (by decide),
   (h.2.2.2.2.2.2.2.1 epB (by decide) (by decide)).1⟩

/-- The discard step leaves a recoverable endpoint alone when the registry has more
than one entry. -/
theorem discardStep_keep (s : State) (u : URI) (hu : u.IsUnrecoverable = false)
    (h : s.connections.length ≠ 1 ∨ s.m_Settings.connectionMaxRetries = 0 ∨
      s.m_connectionAttempt < s.m_Settings.connectionMaxRetries) :
    discardStep s u = s := by
  unfold discardStep
  simp only [hu, Bool.false_eq_true, if_false]
  by_cases h1 : s.connections.length = 1
  · have : ¬ (s.m_Settings.connectionMaxRetries ≠ 0 ∧
        s.m_connectionAttempt ≥ s.m_Settings.connectionMaxRetries) := by
      rintro ⟨ha, hb⟩
      rcases h with h | h | h
      · exact h h1
      · exact ha h
      · omega
    rw [if_pos h1, if_neg this]
  · rw [if_neg h1]

/-- A retry: with the cursor in range on a recoverable endpoint that is not the
sentinel, and attempts below the threshold (or no threshold), rotateConnect is one
connection attempt on that endpoint. -/
theorem rotateConnect_retry (t : State) (u : URI)
    (hnc : t.clientConnected = false)
    (hu : t.connections[t.m_activeConnectionIdx]? = some u)
    (hrec : u.IsUnrecoverable = false) (hhost : u.Host ≠ "exit")
    (hatt : t.m_Settings.connectionMaxRetries = 0 ∨
      t.m_connectionAttempt < t.m_Settings.connectionMaxRetries) :
    rotateConnect t = connectStep t u := by
  have hlt : t.m_activeConnectionIdx < t.connections.length := by
    rcases Nat.lt_or_ge t.m_activeConnectionIdx t.connections.length with h | h
    · exact h
    · rw [List.getElem?_eq_none h] at hu; cases hu
  have hR := rotateConnect_eq t t.m_activeConnectionIdx u hnc (by rw [if_pos hlt]) hu
  have ht : ({ t with m_activeConnectionIdx := t.m_activeConnectionIdx } : State) = t := rfl
  rw [ht, discardStep_keep t u hrec (Or.inr hatt), rotateStep_idle t hatt,
    connectOrTerminate_connect t u hu hhost] at hR
  exact hR

/-- The on-disconnected callback of an existing client returns and keeps settings,
cursor, attempts and connection-switches; the client stays, not connected if it was
not. -/
theorem onDisconnected_fields (t : State) (cl : PoolClient) (hcl : t.p_client = some cl) :
    (onDisconnected t).1 = Outcome.returned ∧
    (onDisconnected t).2.m_Settings = t.m_Settings ∧
    (onDisconnected t).2.m_activeConnectionIdx = t.m_activeConnectionIdx ∧
    (onDisconnected t).2.m_connectionAttempt = t.m_connectionAttempt ∧
    (onDisconnected t).2.m_connectionSwitches = t.m_connectionSwitches ∧
    (onDisconnected t).2.clientConnected = cl.isConnected := by
  unfold onDisconnected
  cases hs : t.m_stopping <;> cases hm : t.farm.isMining <;>
    simp [hcl, hs, hm, State.emit, State.clientConnected]

/-- A rotation: with the cursor in range on a recoverable endpoint of a registry of at
least two entries, and attempts at or above a positive threshold, rotateConnect resets
attempts, advances the cursor with wrap-around, counts one switch and then connects or
terminates. -/
theorem rotateConnect_advance (t : State) (u : URI)
    (hnc : t.clientConnected = false)
    (hu : t.connections[t.m_activeConnectionIdx]? = some u)
    (hrec : u.IsUnrecoverable = false)
    (hn : 2 ≤ t.connections.length) (hfit : t.connections.length ≤ UINT_MOD)
    (hm : t.m_Settings.connectionMaxRetries ≠ 0)
    (hatt : t.m_connectionAttempt ≥ t.m_Settings.connectionMaxRetries) :
    rotateConnect t = connectOrTerminate
      { t with m_connectionAttempt := 0,
               m_activeConnectionIdx := (t.m_activeConnectionIdx + 1) % t.connections.length,
               m_connectionSwitches := (t.m_connectionSwitches + 1) % UINT_MOD } := by
  have hlt : t.m_activeConnectionIdx < t.connections.length := by
    rcases Nat.lt_or_ge t.m_activeConnectionIdx t.connections.length with h | h
    · exact h
    · rw [List.getElem?_eq_none h] at hu; cases hu
  have hR := rotateConnect_eq t t.m_activeConnectionIdx u hnc (by rw [if_pos hlt]) hu
  have ht : ({ t with m_activeConnectionIdx := t.m_activeConnectionIdx } : State) = t := rfl
  have hne : t.connections ≠ [] := by
    intro h; rw [h] at hn; simp at hn
  rw [ht, discardStep_keep t u hrec (Or.inl (by omega)), rotateStep_rotate t hne hm hatt] at hR
  have hidx : (if (t.m_activeConnectionIdx + 1) % UINT_MOD < t.connections.length
      then (t.m_activeConnectionIdx + 1) % UINT_MOD else 0) =
      (t.m_activeConnectionIdx + 1) % t.connections.length := by
    by_cases hlast : t.m_activeConnectionIdx + 1 = t.connections.length
    · rw [hlast, Nat.mod_self]
      by_cases hU : t.connections.length = UINT_MOD
      · rw [hU, Nat.mod_self, if_pos (by unfold UINT_MOD; omega)]
      · rw [Nat.mod_eq_of_lt (by omega), if_neg (by omega)]
    · rw [Nat.mod_eq_of_lt (by omega), Nat.mod_eq_of_lt (by omega), if_pos (by omega)]
  rw [hidx] at hR
  exact hR

/-- C9, amended. On a registry of n ≥ 2 endpoints none of which is unrecoverable, with
max-retries m > 0, cursor c in range on an endpoint u whose host is not the sentinel,
attempts 0 and no connected client (n and m being values of the unsigned type): when
rotateConnect is invoked repeatedly, each attempt ending in the on-disconnected
callback, every one of the first m invocations returns with a client bound to u, the
cursor still c, the registry and connection-switches unchanged, and attempts equal to
the number of the invocation; the invocation number m + 1 leaves the cursor at
(c + 1) mod n and connection-switches incremented by one (in unsigned arithmetic), with
attempts 1 and a client bound to the new endpoint when that endpoint is not the
sentinel, and attempts 0 when it is. -/
theorem rotateFailing_retries_then_rotates (s : State) (u : URI)
    (hn : 2 ≤ s.connections.length) (hfit : s.connections.length ≤ UINT_MOD)
    (hrec : ∀ v ∈ s.connections, v.IsUnrecoverable = false)
    (hm0 : 0 < s.m_Settings.connectionMaxRetries)
    (hmU : s.m_Settings.connectionMaxRetries < UINT_MOD)
    (hu : s.connections[s.m_activeConnectionIdx]? = some u)
    (hhost : u.Host ≠ "exit")
    (hatt : s.m_connectionAttempt = 0)
    (hnc : s.clientConnected = false) :
    (∀ k, 1 ≤ k → k ≤ s.m_Settings.connectionMaxRetries →
      (rotateFailing k s).1 = Outcome.returned ∧
      (rotateFailing k s).2.m_activeConnectionIdx = s.m_activeConnectionIdx ∧
      (rotateFailing k s).2.m_connectionAttempt = k ∧
      (∃ cl, (rotateFailing k s).2.p_client = some cl ∧ cl.getConnection = some u ∧
        cl.isConnected = false) ∧
      (rotateFailing k s).2.m_Settings = s.m_Settings ∧
      (rotateFailing k s).2.m_connectionSwitches = s.m_connectionSwitches) ∧
    (rotateFailing (s.m_Settings.connectionMaxRetries + 1) s).1 = Outcome.returned ∧
    (rotateFailing (s.m_Settings.connectionMaxRetries + 1) s).2.m_activeConnectionIdx =
      (s.m_activeConnectionIdx + 1) % s.connections.length ∧
    (rotateFailing (s.m_Settings.connectionMaxRetries + 1) s).2.m_connectionSwitches =
      (s.m_connectionSwitches + 1) % UINT_MOD ∧
    (rotateFailing (s.m_Settings.connectionMaxRetries + 1) s).2.m_Settings = s.m_Settings ∧
    (∀ v, s.connections[(s.m_activeConnectionIdx + 1) % s.connections.length]? = some v →
      (v.Host ≠ "exit" →
        (rotateFailing (s.m_Settings.connectionMaxRetries + 1) s).2.m_connectionAttempt = 1 ∧
        ∃ cl, (rotateFailing (s.m_Settings.connectionMaxRetries + 1) s).2.p_client = some cl ∧
          cl.getConnection = some v) ∧
      (v.Host = "exit" →
        (rotateFailing (s.m_Settings.connectionMaxRetries + 1) s).2.m_connectionAttempt = 0)) := by
  have hurec : u.IsUnrecoverable = false := hrec u (List.getElem?_mem hu)
  -- the first m invocations
  have hfirst : ∀ k, 1 ≤ k → k ≤ s.m_Settings.connectionMaxRetries →
      (rotateFailing k s).1 = Outcome.returned ∧
      (rotateFailing k s).2.m_activeConnectionIdx = s.m_activeConnectionIdx ∧
      (rotateFailing k s).2.m_connectionAttempt = k ∧
      (∃ cl, (rotateFailing k s).2.p_client = some cl ∧ cl.getConnection = some u ∧
        cl.isConnected = false) ∧
      (rotateFailing k s).2.m_Settings = s.m_Settings ∧
      (rotateFailing k s).2.m_connectionSwitches = s.m_connectionSwitches := by
    intro k
    induction k with
    | zero => intro h; omega
    | succ k ih =>
      intro _ hk
      cases k with
      | zero =>
        have e1 : rotateFailing (0 + 1) s = connectStep s u :=
          rotateConnect_retry s u hnc hu hurec hhost (Or.inr (by omega))
        rw [e1]
        have hf := connectStep_fields s u
        refine ⟨hf.1, hf.2.2.1, ?_, hf.2.2.2.2.2.2.1, hf.2.1, hf.2.2.2.2.1⟩
        rw [hf.2.2.2.1, hatt]; rfl
      | succ k =>
        obtain ⟨_, hi, ha, ⟨cl, hcl, _, hclc⟩, hset, hsw⟩ := ih (by omega) (by omega)
        have hd := onDisconnected_fields (rotateFailing (k + 1) s).2 cl hcl
        have e2 : rotateFailing (k + 1 + 1) s =
            rotateConnect (onDisconnected (rotateFailing (k + 1) s).2).2 := rfl
        rw [e2]
        generalize (rotateFailing (k + 1) s).2 = t at hi ha hset hsw hd
        generalize hdD : (onDisconnected t).2 = tD at hd
        have huD : tD.connections[tD.m_activeConnectionIdx]? = some u := by
          show tD.m_Settings.connections[tD.m_activeConnectionIdx]? = some u
          rw [hd.2.1, hd.2.2.1, hset, hi]; exact hu
        have hlt : tD.m_connectionAttempt < tD.m_Settings.connectionMaxRetries := by
          rw [hd.2.2.2.1, hd.2.1, hset, ha]; omega
        rw [rotateConnect_retry tD u (by rw [hd.2.2.2.2.2, hclc]) huD hurec hhost
          (Or.inr hlt)]
        have hf := connectStep_fields tD u
        refine ⟨hf.1, by rw [hf.2.2.1, hd.2.2.1, hi], ?_, hf.2.2.2.2.2.2.1,
          by rw [hf.2.1, hd.2.1, hset], by rw [hf.2.2.2.2.1, hd.2.2.2.2.1, hsw]⟩
        rw [hf.2.2.2.1, hd.2.2.2.1, ha]
        exact Nat.mod_eq_of_lt (by omega)
  refine ⟨hfirst, ?_⟩
  -- invocation m + 1
  obtain ⟨m, hm⟩ : ∃ m, s.m_Settings.connectionMaxRetries = m + 1 := ⟨_, (Nat.succ_pred_eq_of_pos hm0).symm⟩
  obtain ⟨_, hi, ha, ⟨cl, hcl, _, hclc⟩, hset, hsw⟩ := hfirst (m + 1) (by omega) (by omega)
  have hd := onDisconnected_fields (rotateFailing (m + 1) s).2 cl hcl
  have hstep : rotateFailing (s.m_Settings.connectionMaxRetries + 1) s =
      rotateConnect (onDisconnected (rotateFailing (m + 1) s).2).2 := by
    rw [hm]; rfl
  rw [hstep]
  generalize (rotateFailing (m + 1) s).2 = t at hi ha hset hsw hd
  generalize hdD : (onDisconnected t).2 = tD at hd
  have hconn : tD.connections = s.connections := by
    show tD.m_Settings.connections = s.m_Settings.connections
    rw [hd.2.1, hset]
  have huD : tD.connections[tD.m_activeConnectionIdx]? = some u := by
    rw [hconn, hd.2.2.1, hi]; exact hu
  have hlt : s.m_activeConnectionIdx < s.connections.length := by
    rcases Nat.lt_or_ge s.m_activeConnectionIdx s.connections.length with h | h
    · exact h
    · rw [List.getElem?_eq_none h] at hu; cases hu
  have hR := rotateConnect_advance tD u (by rw [hd.2.2.2.2.2, hclc]) huD hurec
    (by rw [hconn]; exact hn) (by rw [hconn]; exact hfit)
    (by rw [hd.2.1, hset]; omega) (by rw [hd.2.2.2.1, hd.2.1, hset, ha]; omega)
  rw [hconn, hd.2.2.1, hi, hd.2.2.2.2.1, hsw] at hR
  obtain ⟨t2, hnD⟩ : ∃ t2 : State, { tD with
      m_connectionAttempt := 0,
      m_activeConnectionIdx := (s.m_activeConnectionIdx + 1) % s.connections.length,
      m_connectionSwitches := (s.m_connectionSwitches + 1) % UINT_MOD } = t2 := ⟨_, rfl⟩
  rw [hnD] at hR
  have h2c : t2.connections = s.connections := by rw [← hnD]; exact hconn
  have h2s : t2.m_Settings = s.m_Settings := by rw [← hnD]; show tD.m_Settings = _; rw [hd.2.1, hset]
  have h2i : t2.m_activeConnectionIdx = (s.m_activeConnectionIdx + 1) % s.connections.length := by
    rw [← hnD]
  have h2w : t2.m_connectionSwitches = (s.m_connectionSwitches + 1) % UINT_MOD := by rw [← hnD]
  have h2a : t2.m_connectionAttempt = 0 := by rw [← hnD]
  have hin : t2.m_activeConnectionIdx < t2.connections.length := by
    rw [h2i, h2c]; exact Nat.mod_lt _ (by omega)
  have hfr := connectOrTerminate_frame t2 (Or.inr hin)
  rw [hR]
  refine ⟨hfr.1, by rw [hfr.2.2.1, h2i], by rw [hfr.2.2.2, h2w], by rw [hfr.2.1, h2s], ?_⟩
  intro v hv
  have hv2 : t2.connections[t2.m_activeConnectionIdx]? = some v := by rw [h2c, h2i]; exact hv
  constructor
  · intro hh
    rw [connectOrTerminate_connect t2 v hv2 hh]
    have hf := connectStep_fields t2 v
    refine ⟨by rw [hf.2.2.2.1, h2a]; rfl, ?_⟩
    obtain ⟨cl2, h1, h2, _⟩ := hf.2.2.2.2.2.2.1
    exact ⟨cl2, h1, h2⟩
  · intro hh
    rw [connectOrTerminate_terminate t2 (Or.inr ⟨v, hv2, hh⟩), terminateStep_eq]
    exact h2a

/-- C9 fails as stated: on [exit, B] with max-retries 1, cursor 0, attempts 0, no
client and no unrecoverable endpoint, the first invocation of rotateConnect does not
attempt endpoint 0: attempts stays 0, no client is constructed and the termination
signal is raised. -/
theorem rotateFailing_sentinel_counterexample :
    2 ≤ startedExitFirst.connections.length ∧
    (∀ v ∈ startedExitFirst.connections, v.IsUnrecoverable = false) ∧
    0 < startedExitFirst.m_Settings.connectionMaxRetries ∧
    startedExitFirst.m_activeConnectionIdx < startedExitFirst.connections.length ∧
    startedExitFirst.m_connectionAttempt = 0 ∧
    startedExitFirst.clientConnected = false ∧
    (rotateFailing 1 startedExitFirst).2.m_connectionAttempt = 0 ∧
    (rotateFailing 1 startedExitFirst).2.p_client = none ∧
    Effect.raiseSIGTERM ∈ (rotateFailing 1 startedExitFirst).2.effects := by
  decide

/-- C9 amended, on the scenario registry [P, F] with max-retries 3 after start(): the
third invocation is the third attempt on P (cursor 0, attempts 3), and the fourth
invocation moves the cursor to 1 and starts the first attempt on F. -/
theorem rotateFailing_retries_then_rotates_witness :
    (rotateFailing 3 startedAB).2.m_activeConnectionIdx = 0 ∧
    (rotateFailing 3 startedAB).2.m_connectionAttempt = 3 ∧
    (rotateFailing 4 startedAB).2.m_activeConnectionIdx = 1 ∧
    (rotateFailing 4 startedAB).2.m_connectionSwitches = 2 ∧
    (rotateFailing 4 startedAB).2.m_connectionAttempt = 1 :=
  have h := rotateFailing_retries_then_rotates startedAB epA (by decide) (by decide)
    (by decide) (by decide) (by decide) (by decide) (by decide) (by decide) (by decide)
  ⟨(h.1 3 (by decide) (by decide)).2.1, (h.1 3 (by decide) (by decide)).2.2.1,
   h.2.2.1.trans (by decide), h.2.2.2.1.trans (by decide),
   ((h.2.2.2.2.2 epB (by decide)).1 (by decide)).1⟩

/-- The discard step drops a sole recoverable endpoint whose retries are exhausted. -/
theorem discardStep_sole (s : State) (u : URI) (hu : u.IsUnrecoverable = false)
    (h1 : s.connections.length = 1) (hm : s.m_Settings.connectionMaxRetries ≠ 0)
    (ha : s.m_connectionAttempt ≥ s.m_Settings.connectionMaxRetries) :
    discardStep s u = s.eraseActive := by
  unfold discardStep
  simp only [hu, Bool.false_eq_true, if_false]
  rw [if_pos h1, if_pos ⟨hm, ha⟩]

/-- C10. With no connected client and a registry holding exactly one endpoint u, not
marked unrecoverable: if max-retries > 0 and attempts ≥ max-retries, rotateConnect
returns with the registry empty, the client pointer untouched, the worker stopped if it
was mining (and no other call issued: no client constructed, no connection started),
running cleared and the termination signal raised; if max-retries = 0 or attempts is
below max-retries, rotateConnect returns with the registry still [u] and the cursor
at 0. -/
theorem rotateConnect_sole_endpoint (s : State) (u : URI)
    (hnc : s.clientConnected = false)
    (hone : s.connections = [u]) (hrec : u.IsUnrecoverable = false) :
    ((0 < s.m_Settings.connectionMaxRetries ∧
        s.m_connectionAttempt ≥ s.m_Settings.connectionMaxRetries) →
      (rotateConnect s).1 = Outcome.returned ∧
      (rotateConnect s).2.connections = [] ∧
      (rotateConnect s).2.p_client = s.p_client ∧
      (rotateConnect s).2.effects = s.effects ++
        (if s.farm.isMining then [Effect.farmStop] else []) ++ [Effect.raiseSIGTERM] ∧
      (rotateConnect s).2.farm.isMining = false ∧
      (rotateConnect s).2.m_running = false) ∧
    ((s.m_Settings.connectionMaxRetries = 0 ∨
        s.m_connectionAttempt < s.m_Settings.connectionMaxRetries) →
      (rotateConnect s).1 = Outcome.returned ∧
      (rotateConnect s).2.connections = [u] ∧
      (rotateConnect s).2.m_activeConnectionIdx = 0) := by
  have hlen : s.connections.length = 1 := by rw [hone]; rfl
  have hc : (0 : Nat) = if s.m_activeConnectionIdx < s.connections.length
      then s.m_activeConnectionIdx else 0 := by
    by_cases h : s.m_activeConnectionIdx < s.connections.length
    · rw [if_pos h]; omega
    · rw [if_neg h]
  have hu : s.connections[0]? = some u := by rw [hone]; rfl
  have hR := rotateConnect_eq s 0 u hnc hc hu
  obtain ⟨t, ht⟩ : ∃ t : State, { s with m_activeConnectionIdx := 0 } = t := ⟨_, rfl⟩
  rw [ht] at hR
  have htc : t.connections = [u] := by rw [← ht]; exact hone
  have hti : t.m_activeConnectionIdx = 0 := by rw [← ht]
  have htm : t.m_Settings = s.m_Settings := by rw [← ht]
  have hta : t.m_connectionAttempt = s.m_connectionAttempt := by rw [← ht]
  have htp : t.p_client = s.p_client := by rw [← ht]
  have hte : t.effects = s.effects := by rw [← ht]
  have htf : t.farm = s.farm := by rw [← ht]
  constructor
  · rintro ⟨hm, ha⟩
    rw [discardStep_sole t u hrec (by rw [htc]; rfl) (by rw [htm]; omega)
      (by rw [hta, htm]; exact ha)] at hR
    have hnil : t.eraseActive.connections = [] := by
      show t.connections.eraseIdx t.m_activeConnectionIdx = []
      rw [htc, hti]; rfl
    rw [rotateStep_empty _ hnil, connectOrTerminate_terminate _ (Or.inl hnil),
      terminateStep_eq] at hR
    rw [hR]
    refine ⟨rfl, hnil, htp, ?_, rfl, rfl⟩
    show t.effects ++ (if t.farm.isMining = true then [Effect.farmStop] else []) ++ _ = _
    rw [hte, htf]
  · intro h
    have h2 : t.m_Settings.connectionMaxRetries = 0 ∨
        t.m_connectionAttempt < t.m_Settings.connectionMaxRetries := by
      rw [htm, hta]; exact h
    rw [discardStep_keep t u hrec (Or.inr h2), rotateStep_idle t h2] at hR
    have hfr := connectOrTerminate_frame t (Or.inr (by rw [hti, htc]; exact Nat.zero_lt_one))
    rw [hR]
    refine ⟨hfr.1, ?_, by rw [hfr.2.2.1, hti]⟩
    show (connectOrTerminate t).2.m_Settings.connections = [u]
    rw [hfr.2.1]; exact htc

/-- C10 on a manager whose only endpoint A has used its 2 retries while mining: the
registry becomes empty, the worker is stopped and the termination signal raised; with
one retry left A stays in the registry. -/
theorem rotateConnect_sole_endpoint_witness :
    (rotateConnect soleExhausted).2.connections = [] ∧
    (rotateConnect soleExhausted).2.effects = [Effect.farmStop, Effect.raiseSIGTERM] ∧
    (rotateConnect soleExhausted).2.m_running = false ∧
    (rotateConnect soleRetrying).2.connections = [epA] ∧
    (rotateConnect soleRetrying).2.m_activeConnectionIdx = 0 :=
  have h := (rotateConnect_sole_endpoint soleExhausted epA (by decide) (by decide)
    (by decide)).1 (by decide)
  have h2 := (rotateConnect_sole_endpoint soleRetrying epA (by decide) (by decide)
    (by decide)).2 (by decide)
  ⟨h.2.1, h.2.2.2.1.trans (by decide), h.2.2.2.2.2, h2.2.1, h2.2.2⟩

/-! ## rotateConnect: terminal paths, thresholds, idempotence -/

/-- The discard step touches only the registry, the cursor, attempts and
connection-switches, and attempts is kept or reset to 0. -/
theorem discardStep_frame (s : State) (u : URI) :
    (discardStep s u).p_client = s.p_client ∧
    (discardStep s u).effects = s.effects ∧
    (discardStep s u).farm = s.farm ∧
    (discardStep s u).m_running = s.m_running ∧
    (discardStep s u).m_Settings.connectionMaxRetries = s.m_Settings.connectionMaxRetries ∧
    ((discardStep s u).m_connectionAttempt = s.m_connectionAttempt ∨
      (discardStep s u).m_connectionAttempt = 0) := by
  unfold discardStep
  cases hun : u.IsUnrecoverable
  · simp only [Bool.false_eq_true, if_false]
    split
    · split
      · exact ⟨rfl, rfl, rfl, rfl, rfl, Or.inl rfl⟩
      · exact ⟨rfl, rfl, rfl, rfl, rfl, Or.inl rfl⟩
    · exact ⟨rfl, rfl, rfl, rfl, rfl, Or.inl rfl⟩
  · simp only [if_true, clampIdx_eq]
    exact ⟨rfl, rfl, rfl, rfl, rfl, Or.inr rfl⟩

/-- The rotate step touches only the cursor, attempts and connection-switches, and
attempts is kept or reset to 0. -/
theorem rotateStep_frame (s : State) :
    (rotateStep s).p_client = s.p_client ∧
    (rotateStep s).effects = s.effects ∧
    (rotateStep s).farm = s.farm ∧
    (rotateStep s).m_running = s.m_running ∧
    (rotateStep s).m_Settings = s.m_Settings ∧
    ((rotateStep s).m_connectionAttempt = s.m_connectionAttempt ∨
      (rotateStep s).m_connectionAttempt = 0) := by
  unfold rotateStep
  split
  · rw [clampIdx_eq]
    exact ⟨rfl, rfl, rfl, rfl, rfl, Or.inr rfl⟩
  · exact ⟨rfl, rfl, rfl, rfl, rfl, Or.inl rfl⟩

/-- C11. With no connected client and a non-empty registry (u is the endpoint at the
clamped cursor c): when the endpoint v at the cursor after the removal and rotation steps
has host `exit`, rotateConnect returns with the client pointer untouched, the only calls
issued being the stop of the worker (exactly when it is mining) and the termination
signal, so no client is constructed and no connection started; running is cleared, the
worker no longer mines, and attempts is what the removal and rotation steps left (the
old value or 0), never more than before. -/
theorem rotateConnect_sentinel (s : State) (c : Nat) (u v : URI)
    (hnc : s.clientConnected = false)
    (hc : c = if s.m_activeConnectionIdx < s.connections.length then s.m_activeConnectionIdx
      else 0)
    (hu : s.connections[c]? = some u)
    (hv : (rotateStep (discardStep { s with m_activeConnectionIdx := c } u)).connections[
      (rotateStep (discardStep { s with m_activeConnectionIdx := c } u)).m_activeConnectionIdx]? =
        some v)
    (hexit : v.Host = "exit") :
    (rotateConnect s).1 = Outcome.returned ∧
    (rotateConnect s).2.p_client = s.p_client ∧
    (rotateConnect s).2.effects = s.effects ++
      (if s.farm.isMining then [Effect.farmStop] else []) ++ [Effect.raiseSIGTERM] ∧
    (rotateConnect s).2.farm.isMining = false ∧
    (rotateConnect s).2.m_running = false ∧
    (rotateConnect s).2.m_connectionAttempt =
      (rotateStep (discardStep { s with m_activeConnectionIdx := c } u)).m_connectionAttempt ∧
    ((rotateConnect s).2.m_connectionAttempt = s.m_connectionAttempt ∨
      (rotateConnect s).2.m_connectionAttempt = 0) ∧
    (rotateConnect s).2.connections[(rotateConnect s).2.m_activeConnectionIdx]? = some v := by
  have hR := rotateConnect_eq s c u hnc hc hu
  obtain ⟨x, hx⟩ : ∃ x : State, { s with m_activeConnectionIdx := c } = x := ⟨_, rfl⟩
  rw [hx] at hR hv ⊢
  have hxp : x.p_client = s.p_client := by rw [← hx]
  have hxe : x.effects = s.effects := by rw [← hx]
  have hxf : x.farm = s.farm := by rw [← hx]
  have hxa : x.m_connectionAttempt = s.m_connectionAttempt := by rw [← hx]
  have hd := discardStep_frame x u
  have hr := rotateStep_frame (discardStep x u)
  obtain ⟨t, ht⟩ : ∃ t : State, rotateStep (discardStep x u) = t := ⟨_, rfl⟩
  rw [ht] at hR hv hr ⊢
  rw [hR, connectOrTerminate_terminate t (Or.inr ⟨v, hv, hexit⟩), terminateStep_eq]
  refine ⟨rfl, ?_, ?_, rfl, rfl, rfl, ?_, hv⟩
  · show t.p_client = _
    rw [hr.1, hd.1, hxp]
  · show t.effects ++ (if t.farm.isMining = true then [Effect.farmStop] else []) ++ _ = _
    rw [hr.2.1, hd.2.1, hxe, hr.2.2.1, hd.2.2.1, hxf]
  · show t.m_connectionAttempt = _ ∨ t.m_connectionAttempt = 0
    rcases hr.2.2.2.2.2 with h | h
    · rcases hd.2.2.2.2.2 with h2 | h2
      · left; rw [h, h2, hxa]
      · right; rw [h, h2]
    · right; exact h

/-- C11 on the scenario registry [A, exit] with max-retries 1 after the single attempt
on A failed (cursor 0, attempts 1, worker mining): the cursor rotates to 1, the worker is
stopped, running is cleared and the termination signal is raised. -/
theorem rotateConnect_sentinel_witness :
    (rotateConnect exitSecond).2.m_activeConnectionIdx = 1 ∧
    (rotateConnect exitSecond).2.effects = [Effect.farmStop, Effect.raiseSIGTERM] ∧
    (rotateConnect exitSecond).2.m_running = false ∧
    (rotateConnect exitSecond).2.p_client = exitSecond.p_client ∧
    (rotateConnect exitSecond).2.m_connectionAttempt = 0 :=
  have h := rotateConnect_sentinel exitSecond 0 epA epExit (by decide) (by decide) (by decide)
    (by decide) (by decide)
  ⟨by decide, h.2.2.1.trans (by decide), h.2.2.2.2.1, h.2.1, h.2.2.2.2.2.1.trans (by decide)⟩

/-- With no connected client and an empty registry, rotateConnect resets the cursor
and then throws at `connections.at(m_activeConnectionIdx)` (line 311): nothing else is
done, in particular running is not cleared and no signal is raised. -/
theorem rotateConnect_empty_throws (s : State)
    (hnc : s.clientConnected = false) (hempty : s.connections = []) :
    rotateConnect s =
      (Outcome.threw Exn.out_of_range, { s with m_activeConnectionIdx := 0 }) := by
  unfold rotateConnect
  have hlt : ¬ s.m_activeConnectionIdx < s.connections.length := by
    rw [hempty]; exact Nat.not_lt_zero _
  rw [clampIdx_eq, if_neg hlt]
  simp only [hnc, Bool.false_eq_true, if_false]
  have hnone : ({ s with m_activeConnectionIdx := 0 } : State).connections[0]? = none := by
    show s.connections[0]? = none
    rw [hempty]; rfl
  simp only [hnone]

/-- C12 fails on the code: a manager constructed with no endpoint and started has no
connected client and an empty registry, and rotateConnect ends by throwing
std::out_of_range; running is still set, the worker is not stopped and no termination
signal is raised. -/
theorem rotateConnect_empty_registry_evaluation :
    startedEmpty.clientConnected = false ∧ startedEmpty.connections = [] ∧
    (rotateConnect startedEmpty).1 = Outcome.threw Exn.out_of_range ∧
    (rotateConnect startedEmpty).2.m_running = true ∧
    Effect.raiseSIGTERM ∉ (rotateConnect startedEmpty).2.effects ∧
    (rotateConnect startedEmpty).2.effects = startedEmpty.effects := by
  have h := rotateConnect_empty_throws startedEmpty (by decide) (by decide)
  rw [h]
  decide

/-- C13. With max-retries 0, no connected client and the cursor in range on an endpoint
u not marked unrecoverable, for every value of attempts: rotateConnect returns and
leaves the settings (the registry among them), the cursor and connection-switches
unchanged. If the host of u is not `exit`, attempts is incremented by one (in unsigned
arithmetic; it is attempts + 1 unless attempts was the largest unsigned value), a new
client is constructed and u is the endpoint handed to it. -/
theorem rotateConnect_no_threshold (s : State) (u : URI)
    (hm : s.m_Settings.connectionMaxRetries = 0)
    (hnc : s.clientConnected = false)
    (hu : s.connections[s.m_activeConnectionIdx]? = some u)
    (hrec : u.IsUnrecoverable = false) :
    (rotateConnect s).1 = Outcome.returned ∧
    (rotateConnect s).2.m_Settings = s.m_Settings ∧
    (rotateConnect s).2.m_activeConnectionIdx = s.m_activeConnectionIdx ∧
    (rotateConnect s).2.m_connectionSwitches = s.m_connectionSwitches ∧
    (u.Host ≠ "exit" →
      (rotateConnect s).2.m_connectionAttempt = (s.m_connectionAttempt + 1) % UINT_MOD ∧
      (s.m_connectionAttempt + 1 < UINT_MOD →
        (rotateConnect s).2.m_connectionAttempt = s.m_connectionAttempt + 1) ∧
      (∃ cl, (rotateConnect s).2.p_client = some cl ∧ cl.getConnection = some u) ∧
      ∃ k, (rotateConnect s).2.effects =
        s.effects ++ (if s.p_client.isSome then [Effect.clientDestroy] else []) ++
          [Effect.clientNew k, Effect.clientSetConnection u,
           if (s.m_connectionAttempt + 1) % UINT_MOD > 1 ∧ s.m_Settings.delayBeforeRetry > 0
           then Effect.reconnectArm s.m_Settings.delayBeforeRetry else Effect.clientConnect]) := by
  have hlt : s.m_activeConnectionIdx < s.connections.length := by
    rcases Nat.lt_or_ge s.m_activeConnectionIdx s.connections.length with h | h
    · exact h
    · rw [List.getElem?_eq_none h] at hu; cases hu
  have hR := rotateConnect_eq s s.m_activeConnectionIdx u hnc (by rw [if_pos hlt]) hu
  have hs : ({ s with m_activeConnectionIdx := s.m_activeConnectionIdx } : State) = s := rfl
  rw [hs, discardStep_keep s u hrec (Or.inr (Or.inl hm)), rotateStep_idle s (Or.inl hm)] at hR
  have hfr := connectOrTerminate_frame s (Or.inr hlt)
  rw [hR]
  refine ⟨hfr.1, hfr.2.1, hfr.2.2.1, hfr.2.2.2, ?_⟩
  intro hhost
  rw [connectOrTerminate_connect s u hu hhost]
  have hf := connectStep_fields s u
  refine ⟨hf.2.2.2.1, ?_, ?_, hf.2.2.2.2.2.2.2⟩
  · intro hsmall
    rw [hf.2.2.2.1, Nat.mod_eq_of_lt hsmall]
  · obtain ⟨cl, h1, h2, _⟩ := hf.2.2.2.2.2.2.1
    exact ⟨cl, h1, h2⟩

/-- C13 on [A, B] with max-retries 0 after 7 failed attempts on A: the eighth attempt
is again on A, the cursor stays 0 and no switch is counted. -/
theorem rotateConnect_no_threshold_witness :
    (rotateConnect noThreshold).2.m_activeConnectionIdx = 0 ∧
    (rotateConnect noThreshold).2.m_connectionSwitches = 1 ∧
    (rotateConnect noThreshold).2.m_connectionAttempt = 8 ∧
    ∃ cl, (rotateConnect noThreshold).2.p_client = some cl ∧ cl.getConnection = some epA :=
  have h := rotateConnect_no_threshold noThreshold epA (by decide) (by decide) (by decide)
    (by decide)
  ⟨h.2.2.1, h.2.2.2.1, ((h.2.2.2.2 (by decide)).2.1 (by decide)), (h.2.2.2.2 (by decide)).2.2.1⟩

/-- C14. Idempotent rotate: when a client exists and reports connected, rotateConnect
returns and the manager state is the state before the call: registry, cursor, attempts,
both counters, flags, current work and client are unchanged and no call is issued to a
collaborator (no client constructed, no timer armed, no connect). -/
theorem rotateConnect_connected_noop (s : State) (cl : PoolClient)
    (hcl : s.p_client = some cl) (hconn : cl.isConnected = true) :
    rotateConnect s = (Outcome.returned, s) := by
  unfold rotateConnect
  have h : s.clientConnected = true := by
    unfold State.clientConnected
    rw [hcl]
    exact hconn
  rw [h, if_pos rfl]

/-- C14 on the manager mining on B through a connected client. -/
theorem rotateConnect_connected_noop_witness :
    rotateConnect miningOnB = (Outcome.returned, miningOnB) :=
  rotateConnect_connected_noop miningOnB (connectedClient epB) (by decide) (by decide)

/-! ## Work packages -/

/-- The test of lines 127-136 computes the epoch-change condition of the spec when the
client holds its endpoint. -/
theorem newEpochOf_eq (s : State) (wp : WorkPackage) (cl : PoolClient) (u : URI)
    (hcl : s.p_client = some cl) (hu : cl.getConnection = some u) :
    newEpochOf s wp = some (decide (epochChanged s.m_currentWp u.StratumMode wp)) := by
  unfold newEpochOf epochChanged
  by_cases h1 : s.m_currentWp.epoch = -1
  · simp [h1]
  · by_cases h3 : u.StratumMode = 3
    · simp [h1, hcl, hu, h3]
    · simp [h1, hcl, hu, h3]

/-- The callback on a non-empty package once the epoch test has answered `b`. -/
theorem onWorkReceived_eq (f : Nat → Int) (s : State) (wp : WorkPackage) (b : Bool)
    (hne : wp.header ≠ 0) (hb : newEpochOf s wp = some b) :
    onWorkReceived f s wp = (Outcome.returned,
      { s with
        m_epochChanges := if b then (s.m_epochChanges + 1) % UINT_MOD else s.m_epochChanges,
        m_currentWp := { wp with epoch :=
          if b then
            (if wp.epoch = -1 then (if 0 ≤ wp.block then Int.tdiv wp.block 30000 else f wp.seed)
             else wp.epoch)
          else s.m_currentWp.epoch },
        effects := s.effects ++ [Effect.farmSetWork { wp with epoch :=
          if b then
            (if wp.epoch = -1 then (if 0 ≤ wp.block then Int.tdiv wp.block 30000 else f wp.seed)
             else wp.epoch)
          else s.m_currentWp.epoch }] }) := by
  unfold onWorkReceived
  simp only [hne, if_false, hb]
  cases b
  · simp [State.emit]
  · by_cases h1 : wp.epoch = -1
    · by_cases h2 : 0 ≤ wp.block
      · simp [State.emit, h1, h2]
      · simp [State.emit, h1, h2]
    · simp [State.emit, h1]

/-- C15. For every work package delivered to on-work-received: an empty package (empty
header) leaves the whole state unchanged. For a non-empty package, when the current
epoch is -1 the callback returns with epoch-changes incremented by one (in unsigned
arithmetic); and, the client holding endpoint u whose stratum mode it reports, the
callback returns with epoch-changes incremented by one if the current epoch is -1, or
the mode is 3 and wp.epoch differs from the current epoch, or the mode is not 3 and
wp.seed differs from the current seed, and with epoch-changes unchanged in every other
case. -/
theorem onWorkReceived_epochChanges (f : Nat → Int) (s : State) (wp : WorkPackage) :
    (wp.header = 0 → onWorkReceived f s wp = (Outcome.returned, s)) ∧
    (wp.header ≠ 0 → s.m_currentWp.epoch = -1 →
      (onWorkReceived f s wp).1 = Outcome.returned ∧
      (onWorkReceived f s wp).2.m_epochChanges = (s.m_epochChanges + 1) % UINT_MOD) ∧
    (wp.header ≠ 0 → ∀ cl u, s.p_client = some cl → cl.getConnection = some u →
      (onWorkReceived f s wp).1 = Outcome.returned ∧
      (onWorkReceived f s wp).2.m_epochChanges =
        (if epochChanged s.m_currentWp u.StratumMode wp
         then (s.m_epochChanges + 1) % UINT_MOD else s.m_epochChanges)) := by
  refine ⟨?_, ?_, ?_⟩
  · intro h
    unfold onWorkReceived
    rw [if_pos h]
  · intro hne h1
    have hb : newEpochOf s wp = some true := by
      unfold newEpochOf
      rw [if_pos h1]
    rw [onWorkReceived_eq f s wp true hne hb]
    exact ⟨rfl, rfl⟩
  · intro hne cl u hcl hu
    rw [onWorkReceived_eq f s wp _ hne (newEpochOf_eq s wp cl u hcl hu)]
    refine ⟨rfl, ?_⟩
    by_cases h : epochChanged s.m_currentWp u.StratumMode wp
    · simp [h]
    · simp [h]

/-- C15 on the scenario of a client in stratum mode 0: the first package (current epoch
-1) counts one epoch change, a second package with the same seed counts none, a package
with another seed counts the second one, and an empty package changes nothing. -/
theorem onWorkReceived_epochChanges_witness :
    (onWorkReceived sampleLookup miningOnB wpBlock60000).2.m_epochChanges = 1 ∧
    (onWorkReceived sampleLookup afterFirstWork wpSameSeedEpoch7).2.m_epochChanges = 1 ∧
    (onWorkReceived sampleLookup afterFirstWork wpOtherSeed).2.m_epochChanges = 2 ∧
    onWorkReceived sampleLookup afterFirstWork { wpOtherSeed with header := 0 } =
      (Outcome.returned, afterFirstWork) :=
  ⟨((onWorkReceived_epochChanges sampleLookup miningOnB wpBlock60000).2.1 (by decide)
      (by decide)).2.trans (by decide),
   ((onWorkReceived_epochChanges sampleLookup afterFirstWork wpSameSeedEpoch7).2.2 (by decide)
      (connectedClient epB) epB (by decide) (by decide)).2.trans (by decide),
   ((onWorkReceived_epochChanges sampleLookup afterFirstWork wpOtherSeed).2.2 (by decide)
      (connectedClient epB) epB (by decide) (by decide)).2.trans (by decide),
   (onWorkReceived_epochChanges sampleLookup afterFirstWork
      { wpOtherSeed with header := 0 }).1 (by decide)⟩

/-- C16 fails as stated: with current epoch 2 and a client in stratum mode 0, a
non-empty package with the same seed that carries epoch 7 is adopted with epoch 2, the
previous current epoch, not with wp.epoch. -/
theorem onWorkReceived_currentWork_counterexample :
    wpSameSeedEpoch7.header ≠ 0 ∧ wpSameSeedEpoch7.epoch = 7 ∧
    afterFirstWork.m_currentWp.epoch = 2 ∧
    (onWorkReceived sampleLookup afterFirstWork wpSameSeedEpoch7).1 = Outcome.returned ∧
    (onWorkReceived sampleLookup afterFirstWork wpSameSeedEpoch7).2.m_currentWp.epoch = 2 := by
  decide

/-- C16, amended. For every non-empty work package wp delivered to on-work-received by
a client holding endpoint u: the callback returns; the current work afterwards equals wp
in header, job, seed, boundary, block and difficulty; when no epoch change is detected
its epoch is the previous current epoch; when an epoch change is detected its epoch is
wp.epoch when wp.epoch is not -1, block / 30000 (integer division) when wp.epoch = -1
and block ≥ 0, and the seed-to-epoch lookup of wp.seed when wp.epoch = -1 and block < 0;
the only call issued is `setWork` on the worker, with this current work. -/
theorem onWorkReceived_currentWork (f : Nat → Int) (s : State) (wp : WorkPackage)
    (cl : PoolClient) (u : URI)
    (hne : wp.header ≠ 0) (hcl : s.p_client = some cl) (hu : cl.getConnection = some u) :
    (onWorkReceived f s wp).1 = Outcome.returned ∧
    (onWorkReceived f s wp).2.m_currentWp.header = wp.header ∧
    (onWorkReceived f s wp).2.m_currentWp.job = wp.job ∧
    (onWorkReceived f s wp).2.m_currentWp.seed = wp.seed ∧
    (onWorkReceived f s wp).2.m_currentWp.boundary = wp.boundary ∧
    (onWorkReceived f s wp).2.m_currentWp.block = wp.block ∧
    (onWorkReceived f s wp).2.m_currentWp.difficulty = wp.difficulty ∧
    (¬ epochChanged s.m_currentWp u.StratumMode wp →
      (onWorkReceived f s wp).2.m_currentWp.epoch = s.m_currentWp.epoch) ∧
    (epochChanged s.m_currentWp u.StratumMode wp →
      (wp.epoch ≠ -1 → (onWorkReceived f s wp).2.m_currentWp.epoch = wp.epoch) ∧
      (wp.epoch = -1 → 0 ≤ wp.block →
        (onWorkReceived f s wp).2.m_currentWp.epoch = wp.block / 30000) ∧
      (wp.epoch = -1 → wp.block < 0 →
        (onWorkReceived f s wp).2.m_currentWp.epoch = f wp.seed)) ∧
    (onWorkReceived f s wp).2.effects =
      s.effects ++ [Effect.farmSetWork (onWorkReceived f s wp).2.m_currentWp] := by
  rw [onWorkReceived_eq f s wp _ hne (newEpochOf_eq s wp cl u hcl hu)]
  refine ⟨rfl, rfl, rfl, rfl, rfl, rfl, rfl, ?_, ?_, rfl⟩
  · intro h
    simp [h]
  · intro h
    refine ⟨?_, ?_, ?_⟩
    · intro h1
      simp [h, h1]
    · intro h1 h2
      simp only [h, decide_True, if_true, h1, h2]
      exact Int.tdiv_eq_ediv h2 (by decide)
    · intro h1 h2
      have h3 : ¬ 0 ≤ wp.block := by omega
      simp [h, h1, h3]

/-- C16 amended, on the scenario: with current epoch -1, the package with epoch -1 at
block 60000 is adopted with epoch 2 and forwarded to the worker; a later package with
another seed and no block height takes its epoch from the seed lookup. -/
theorem onWorkReceived_currentWork_witness :
    (onWorkReceived sampleLookup miningOnB wpBlock60000).2.m_currentWp.epoch = 2 ∧
    (onWorkReceived sampleLookup miningOnB wpBlock60000).2.effects =
      [Effect.farmSetWork { wpBlock60000 with epoch := 2 }] ∧
    (onWorkReceived sampleLookup afterFirstWork wpOtherSeed).2.m_currentWp.epoch =
      sampleLookup 12000 :=
  have h := onWorkReceived_currentWork sampleLookup miningOnB wpBlock60000 (connectedClient epB)
    epB (by decide) (by decide) (by decide)
  have h2 := onWorkReceived_currentWork sampleLookup afterFirstWork wpOtherSeed
    (connectedClient epB) epB (by decide) (by decide) (by decide)
  ⟨((h.2.2.2.2.2.2.2.2.1 (by decide)).2.1 (by decide) (by decide)).trans (by decide),
   h.2.2.2.2.2.2.2.2.2.trans (by decide),
   (h2.2.2.2.2.2.2.2.2.1 (by decide)).2.2 (by decide) (by decide)⟩

/-! ## Invariants -/

/-- An anchored cursor satisfies the cursor predicate of the spec. -/
theorem cursorAnchored_valid (s : State) (h : cursorAnchored s) : cursorValid s := by
  rcases h with h | ⟨h, _⟩
  · exact Or.inr h
  · exact Or.inl h

/-- Both cursor predicates only read the number of endpoints and the cursor. -/
theorem cursor_of_same_size (s t : State)
    (hl : t.connections.length = s.connections.length)
    (hi : t.m_activeConnectionIdx = s.m_activeConnectionIdx) :
    (cursorValid s → cursorValid t) ∧ (cursorAnchored s → cursorAnchored t) := by
  have hnil : s.connections = [] → t.connections = [] := by
    intro h
    rw [h] at hl
    exact List.eq_nil_of_length_eq_zero hl
  constructor
  · rintro (h | h)
    · exact Or.inl (hnil h)
    · right; rw [hi, hl]; exact h
  · rintro (h | ⟨h, h0⟩)
    · left; rw [hi, hl]; exact h
    · right; exact ⟨hnil h, by rw [hi, h0]⟩

/-- The bounds check anchors the cursor. -/
theorem cursorAnchored_clampIdx (s : State) : cursorAnchored s.clampIdx := by
  rw [clampIdx_eq]
  by_cases h : s.m_activeConnectionIdx < s.connections.length
  · left
    show (if s.m_activeConnectionIdx < s.connections.length then s.m_activeConnectionIdx
      else 0) < s.connections.length
    rw [if_pos h]; exact h
  · by_cases hl : s.connections = []
    · right
      refine ⟨hl, ?_⟩
      show (if s.m_activeConnectionIdx < s.connections.length then s.m_activeConnectionIdx
        else 0) = 0
      rw [if_neg h]
    · left
      show (if s.m_activeConnectionIdx < s.connections.length then s.m_activeConnectionIdx
        else 0) < s.connections.length
      rw [if_neg h]
      exact List.length_pos.mpr hl

/-- The discard step leaves the cursor anchored when it was in range. -/
theorem cursorAnchored_discardStep (x : State) (u : URI)
    (hlt : x.m_activeConnectionIdx < x.connections.length) :
    cursorAnchored (discardStep x u) := by
  unfold discardStep
  cases hun : u.IsUnrecoverable
  · simp only [Bool.false_eq_true, if_false]
    split
    · rename_i h1
      split
      · right
        have h0 : x.m_activeConnectionIdx = 0 := by omega
        refine ⟨?_, h0⟩
        show x.connections.eraseIdx x.m_activeConnectionIdx = []
        rw [List.eraseIdx_eq_nil]
        exact Or.inr ⟨h1, h0⟩
      · exact Or.inl hlt
    · exact Or.inl hlt
  · simp only [if_true]
    exact (cursor_of_same_size _ _ rfl rfl).2 (cursorAnchored_clampIdx _)

/-- The rotate step keeps the cursor anchored. -/
theorem cursorAnchored_rotateStep (x : State) (h : cursorAnchored x) :
    cursorAnchored (rotateStep x) := by
  unfold rotateStep
  split
  · exact (cursor_of_same_size _ _ rfl rfl).2 (cursorAnchored_clampIdx _)
  · exact h

/-- The last step of rotateConnect never writes the settings or the cursor, whatever
its outcome. -/
theorem connectOrTerminate_registry (s : State) :
    (connectOrTerminate s).2.m_Settings = s.m_Settings ∧
    (connectOrTerminate s).2.m_activeConnectionIdx = s.m_activeConnectionIdx ∧
    (connectOrTerminate s).2.m_connectionSwitches = s.m_connectionSwitches := by
  by_cases hnil : s.connections = []
  · rw [connectOrTerminate_terminate s (Or.inl hnil), terminateStep_eq]
    exact ⟨rfl, rfl, rfl⟩
  · cases hv : s.connections[s.m_activeConnectionIdx]? with
    | none =>
      have hne : s.connections.isEmpty = false := by
        cases hl : s.connections with
        | nil => exact absurd hl hnil
        | cons a l => rfl
      unfold connectOrTerminate
      simp only [hne, Bool.false_eq_true, if_false, hv]
      exact ⟨trivial, trivial, trivial⟩
    | some v =>
      have hlt : s.m_activeConnectionIdx < s.connections.length := by
        rcases Nat.lt_or_ge s.m_activeConnectionIdx s.connections.length with h | h
        · exact h
        · rw [List.getElem?_eq_none h] at hv; cases hv
      have hfr := connectOrTerminate_frame s (Or.inr hlt)
      exact ⟨hfr.2.1, hfr.2.2.1, hfr.2.2.2⟩

/-- rotateConnect leaves registry and cursor as they were (a client is connected) or
leaves the cursor anchored. -/
theorem rotateConnect_cursor (s : State) :
    ((rotateConnect s).2.connections = s.connections ∧
      (rotateConnect s).2.m_activeConnectionIdx = s.m_activeConnectionIdx) ∨
    cursorAnchored (rotateConnect s).2 := by
  unfold rotateConnect
  cases hc : s.clientConnected
  · right
    simp only [Bool.false_eq_true, if_false]
    have hcl := cursorAnchored_clampIdx s
    cases hu : s.clampIdx.connections[s.clampIdx.m_activeConnectionIdx]? with
    | none => exact hcl
    | some u =>
      have hlt : s.clampIdx.m_activeConnectionIdx < s.clampIdx.connections.length := by
        rcases Nat.lt_or_ge s.clampIdx.m_activeConnectionIdx s.clampIdx.connections.length
          with h | h
        · exact h
        · rw [List.getElem?_eq_none h] at hu; cases hu
      have ht := cursorAnchored_rotateStep _ (cursorAnchored_discardStep s.clampIdx u hlt)
      have hr := connectOrTerminate_registry (rotateStep (discardStep s.clampIdx u))
      exact (cursor_of_same_size _ _ (by
        show (connectOrTerminate _).2.m_Settings.connections.length = _
        rw [hr.1]) hr.2.1).2 ht
  · left
    simp only [if_true]
    exact ⟨trivial, trivial⟩

/-- Cursor 0 is anchored whatever the registry. -/
theorem cursorAnchored_zero (s : State) (h0 : s.m_activeConnectionIdx = 0) :
    cursorAnchored s := by
  by_cases hl : s.connections = []
  · exact Or.inr ⟨hl, h0⟩
  · left; rw [h0]; exact List.length_pos.mpr hl

/-- removeConnection, from a state satisfying the cursor predicate, leaves the state
as it was or leaves the cursor below the registry size. -/
theorem removeConnection_cursor (s : State) (idx : Nat) (h : cursorValid s) :
    (removeConnection s idx).2 = s ∨ cursorAnchored (removeConnection s idx).2 := by
  unfold removeConnection
  cases h1 : s.m_async_pending
  · by_cases h2 : idx ≥ s.connections.length
    · left; simp [h2]
    · by_cases h3 : idx = s.m_activeConnectionIdx
      · left; subst h3; simp [h2]
      · right
        have hcur : s.m_activeConnectionIdx < s.connections.length := by
          rcases h with h | h
          · rw [h] at h2; simp at h2
          · exact h
        have hlen : (s.connections.eraseIdx idx).length + 1 = s.connections.length := by
          rw [List.length_eraseIdx_of_lt (by omega)]; omega
        simp only [h2, h3, if_false, Bool.false_eq_true]
        by_cases hgt : s.m_activeConnectionIdx > idx
        · have e : (s.setConnections (s.connections.eraseIdx idx)).m_activeConnectionIdx > idx :=
            hgt
          rw [if_pos e]
          left
          show s.m_activeConnectionIdx - 1 < (s.connections.eraseIdx idx).length
          omega
        · have e : ¬ (s.setConnections (s.connections.eraseIdx idx)).m_activeConnectionIdx > idx :=
            hgt
          rw [if_neg e]
          left
          show s.m_activeConnectionIdx < (s.connections.eraseIdx idx).length
          omega
  · left; simp

/-- setActiveConnectionCommon with an index below the registry size leaves registry and
cursor as they were or leaves the cursor below the registry size. -/
theorem setActiveConnectionCommon_cursor (s : State) (idx : Nat)
    (hidx : idx < s.connections.length) :
    ((setActiveConnectionCommon s idx).2.connections = s.connections ∧
      (setActiveConnectionCommon s idx).2.m_activeConnectionIdx = s.m_activeConnectionIdx) ∨
    cursorAnchored (setActiveConnectionCommon s idx).2 := by
  unfold setActiveConnectionCommon
  cases hp : s.m_async_pending
  · by_cases h2 : idx = s.m_activeConnectionIdx
    · left; subst h2; simp
    · right
      cases hc : s.p_client with
      | none =>
        simp only [Bool.false_eq_true, if_false, ne_eq, h2, not_false_eq_true, if_true,
          State.bumpSwitches, hc]
        exact Or.inl hidx
      | some c =>
        simp only [Bool.false_eq_true, if_false, ne_eq, h2, not_false_eq_true, if_true,
          State.bumpSwitches, hc, State.emit]
        exact Or.inl hidx
  · left; simp

/-- The index found by the search loop started at k lies in the searched range. -/
theorem findConnection_range (cs : String) :
    ∀ (l : List URI) (k i : Nat), findConnection cs l k = some i → k ≤ i ∧ i < k + l.length := by
  intro l
  induction l with
  | nil => intro k i h; simp [findConnection] at h
  | cons a rest ih =>
    intro k i h
    unfold findConnection at h
    by_cases ha : iequals a.str cs = true
    · rw [if_pos ha] at h
      have : k = i := by simpa using h
      subst this
      simp
    · rw [if_neg ha] at h
      have := ih (k + 1) i h
      simp only [List.length_cons]
      omega

/-- The failover callback leaves the state as it was or sets the cursor to 0. -/
theorem failovertimer_elapsed_cursor (s : State) (ec : Bool) :
    (failovertimer_elapsed s ec).2 = s ∨
    ((failovertimer_elapsed s ec).2.m_Settings = s.m_Settings ∧
      (failovertimer_elapsed s ec).2.m_activeConnectionIdx = 0) := by
  unfold failovertimer_elapsed
  cases ec
  · cases hr : s.m_running
    · left; simp
    · by_cases h0 : s.m_activeConnectionIdx = 0
      · left; simp [h0]
      · right
        cases hc : s.p_client <;>
          simp [h0, hc, State.bumpSwitches, State.emit]
  · left; simp

/-- A step that keeps registry and cursor, or leaves the cursor anchored, preserves
both cursor predicates. -/
theorem cursor_step (s t : State)
    (h : (t.connections = s.connections ∧ t.m_activeConnectionIdx = s.m_activeConnectionIdx) ∨
      cursorAnchored t) :
    (cursorValid s → cursorValid t) ∧ (cursorAnchored s → cursorAnchored t) := by
  rcases h with ⟨hc, hi⟩ | h
  · exact cursor_of_same_size s t (by rw [hc]) hi
  · exact ⟨fun _ => cursorAnchored_valid t h, fun _ => h⟩

/-- removeConnection, both forms of setActiveConnection, the failover callback and
rotateConnect, from a state satisfying the cursor predicate, keep registry and cursor or
leave the cursor anchored. -/
theorem operations_cursor (s : State) (hv : cursorValid s) (idx : Nat) (uri : String)
    (ec : Bool) :
    (((removeConnection s idx).2.connections = s.connections ∧
        (removeConnection s idx).2.m_activeConnectionIdx = s.m_activeConnectionIdx) ∨
      cursorAnchored (removeConnection s idx).2) ∧
    (((setActiveConnection s idx).2.connections = s.connections ∧
        (setActiveConnection s idx).2.m_activeConnectionIdx = s.m_activeConnectionIdx) ∨
      cursorAnchored (setActiveConnection s idx).2) ∧
    (((setActiveConnectionStr s uri).2.connections = s.connections ∧
        (setActiveConnectionStr s uri).2.m_activeConnectionIdx = s.m_activeConnectionIdx) ∨
      cursorAnchored (setActiveConnectionStr s uri).2) ∧
    (((failovertimer_elapsed s ec).2.connections = s.connections ∧
        (failovertimer_elapsed s ec).2.m_activeConnectionIdx = s.m_activeConnectionIdx) ∨
      cursorAnchored (failovertimer_elapsed s ec).2) ∧
    (((rotateConnect s).2.connections = s.connections ∧
        (rotateConnect s).2.m_activeConnectionIdx = s.m_activeConnectionIdx) ∨
      cursorAnchored (rotateConnect s).2) := by
  refine ⟨?_, ?_, ?_, ?_, rotateConnect_cursor s⟩
  · rcases removeConnection_cursor s idx hv with h | h
    · left; rw [h]; exact ⟨rfl, rfl⟩
    · exact Or.inr h
  · unfold setActiveConnection
    by_cases h : idx ≥ s.connections.length
    · left; rw [if_pos h]; exact ⟨rfl, rfl⟩
    · rw [if_neg h]
      exact setActiveConnectionCommon_cursor s idx (by omega)
  · unfold setActiveConnectionStr
    cases hf : findConnection uri s.connections 0 with
    | none => left; exact ⟨rfl, rfl⟩
    | some i =>
      have hr := findConnection_range uri s.connections 0 i hf
      exact setActiveConnectionCommon_cursor s (i % UINT_MOD)
        (Nat.lt_of_le_of_lt (Nat.mod_le _ _) (by omega))
  · rcases failovertimer_elapsed_cursor s ec with h | ⟨hs, h0⟩
    · left; rw [h]; exact ⟨rfl, rfl⟩
    · right
      exact cursorAnchored_zero _ h0

/-- addConnection keeps an anchored cursor anchored. -/
theorem addConnection_anchored (s : State) (u : URI) (h : cursorAnchored s) :
    cursorAnchored (addConnection s u).2 := by
  left
  show s.m_activeConnectionIdx < (s.connections ++ [u]).length
  rw [List.length_append]
  rcases h with h | ⟨_, h0⟩
  · omega
  · rw [h0]; simp

/-- In every reachable state the cursor is anchored. -/
theorem reachable_anchored (s : State) (h : Reachable s) : cursorAnchored s := by
  induction h with
  | init st => exact cursorAnchored_zero _ rfl
  | add s u _ ih => exact addConnection_anchored s u ih
  | remove s idx _ ih =>
    exact (cursor_step s _ (operations_cursor s (cursorAnchored_valid s ih) idx "" false).1).2 ih
  | select s idx _ ih =>
    exact (cursor_step s _
      (operations_cursor s (cursorAnchored_valid s ih) idx "" false).2.1).2 ih
  | selectUri s uri _ ih =>
    exact (cursor_step s _
      (operations_cursor s (cursorAnchored_valid s ih) 0 uri false).2.2.1).2 ih
  | failover s ec _ ih =>
    exact (cursor_step s _
      (operations_cursor s (cursorAnchored_valid s ih) 0 "" ec).2.2.2.1).2 ih
  | rotate s _ ih => exact (cursor_step s _ (rotateConnect_cursor s)).2 ih
  | other s t _ hl hi ih => exact (cursor_of_same_size s t hl hi).2 ih

/-- C17. The predicate "the registry is empty or the cursor is below the registry size"
is an invariant of the manager: it holds in the freshly constructed manager and in every
state reached from it; from every reachable state, addConnection, removeConnection, both
forms of setActiveConnection (whatever their outcome), the failover callback and
rotateConnect (on every path, whatever its outcome) lead to a state that satisfies it.
The last five preserve it from any state that satisfies it; addConnection preserves it
from any state whose cursor is below the registry size or is 0 on an empty registry,
which every reachable state is. -/
theorem cursorValid_invariant :
    (∀ st, cursorValid (construct st)) ∧
    (∀ s, Reachable s → cursorValid s) ∧
    (∀ s, Reachable s → ∀ (u : URI) (idx : Nat) (uri : String) (ec : Bool),
      cursorValid (addConnection s u).2 ∧
      cursorValid (removeConnection s idx).2 ∧
      cursorValid (setActiveConnection s idx).2 ∧
      cursorValid (setActiveConnectionStr s uri).2 ∧
      cursorValid (failovertimer_elapsed s ec).2 ∧
      cursorValid (rotateConnect s).2) ∧
    (∀ s, cursorValid s → ∀ (idx : Nat) (uri : String) (ec : Bool),
      cursorValid (removeConnection s idx).2 ∧
      cursorValid (setActiveConnection s idx).2 ∧
      cursorValid (setActiveConnectionStr s uri).2 ∧
      cursorValid (failovertimer_elapsed s ec).2 ∧
      cursorValid (rotateConnect s).2) ∧
    (∀ s u, cursorAnchored s → cursorValid (addConnection s u).2) := by
  have hfive : ∀ s, cursorValid s → ∀ (idx : Nat) (uri : String) (ec : Bool),
      cursorValid (removeConnection s idx).2 ∧
      cursorValid (setActiveConnection s idx).2 ∧
      cursorValid (setActiveConnectionStr s uri).2 ∧
      cursorValid (failovertimer_elapsed s ec).2 ∧
      cursorValid (rotateConnect s).2 := by
    intro s hv idx uri ec
    have h := operations_cursor s hv idx uri ec
    exact ⟨(cursor_step s _ h.1).1 hv, (cursor_step s _ h.2.1).1 hv,
      (cursor_step s _ h.2.2.1).1 hv, (cursor_step s _ h.2.2.2.1).1 hv,
      (cursor_step s _ h.2.2.2.2).1 hv⟩
  have hadd : ∀ s u, cursorAnchored s → cursorValid (addConnection s u).2 :=
    fun s u h => cursorAnchored_valid _ (addConnection_anchored s u h)
  refine ⟨fun st => cursorAnchored_valid _ (cursorAnchored_zero _ rfl),
    fun s h => cursorAnchored_valid s (reachable_anchored s h), ?_, hfive, hadd⟩
  intro s h u idx uri ec
  have ha := reachable_anchored s h
  have h5 := hfive s (cursorAnchored_valid s ha) idx uri ec
  exact ⟨hadd s u ha, h5⟩

/-- C17 along a run: construct on [A, B], add C, start, rotate, select C by URI,
remove index 0, failover expiry, rotate again; the cursor predicate holds at the end,
and also after removing the (non-active) index 1 there. -/
theorem cursorValid_invariant_witness :
    cursorValid (rotateConnect (failovertimer_elapsed (removeConnection
      (setActiveConnectionStr (rotateConnect (start (addConnection freshAB epC).2).2).2
        "stratum://c.pool:4444").2 0).2 false).2).2 ∧
    cursorValid (removeConnection (rotateConnect (failovertimer_elapsed (removeConnection
      (setActiveConnectionStr (rotateConnect (start (addConnection freshAB epC).2).2).2
        "stratum://c.pool:4444").2 0).2 false).2).2 1).2 :=
  have hr : Reachable (rotateConnect (failovertimer_elapsed (removeConnection
      (setActiveConnectionStr (rotateConnect (start (addConnection freshAB epC).2).2).2
        "stratum://c.pool:4444").2 0).2 false).2).2 :=
    Reachable.rotate _ (Reachable.failover _ _ (Reachable.remove _ _ (Reachable.selectUri _ _
      (Reachable.rotate _ (Reachable.other _ _ (Reachable.add _ _ (Reachable.init _))
        rfl rfl)))))
  ⟨cursorValid_invariant.2.1 _ hr,
   (cursorValid_invariant.2.2.1 _ hr epA 1 "" false).2.1⟩

/-- The steps of the manager that are summarised as `other` in `Reachable` keep the
registry and the cursor: start and the on-connected, on-disconnected and
on-work-received callbacks. -/
theorem callbacks_keep_cursor (f : Nat → Int) (s : State) (wp : WorkPackage) :
    ((start s).2.m_Settings = s.m_Settings ∧
      (start s).2.m_activeConnectionIdx = s.m_activeConnectionIdx) ∧
    ((onConnected s).2.m_Settings = s.m_Settings ∧
      (onConnected s).2.m_activeConnectionIdx = s.m_activeConnectionIdx) ∧
    ((onDisconnected s).2.m_Settings = s.m_Settings ∧
      (onDisconnected s).2.m_activeConnectionIdx = s.m_activeConnectionIdx) ∧
    ((onWorkReceived f s wp).2.m_Settings = s.m_Settings ∧
      (onWorkReceived f s wp).2.m_activeConnectionIdx = s.m_activeConnectionIdx) := by
  refine ⟨⟨rfl, rfl⟩, ?_, ?_, ?_⟩
  · unfold onConnected
    simp only [State.emit]
    split <;> split <;> (try split) <;> (try split) <;> exact ⟨rfl, rfl⟩
  · unfold onDisconnected
    cases hc : s.p_client with
    | none => exact ⟨rfl, rfl⟩
    | some c =>
      simp only [State.emit]
      split
      · split <;> exact ⟨rfl, rfl⟩
      · exact ⟨rfl, rfl⟩
  · by_cases hne : wp.header = 0
    · unfold onWorkReceived
      rw [if_pos hne]
      exact ⟨rfl, rfl⟩
    · cases hb : newEpochOf s wp with
      | none =>
        unfold onWorkReceived
        simp only [hne, if_false, hb]
        exact ⟨trivial, trivial⟩
      | some b =>
        rw [onWorkReceived_eq f s wp b hne hb]
        exact ⟨rfl, rfl⟩

/-- The failover callback when it fires: not cancelled, running set, cursor not 0. -/
theorem failovertimer_elapsed_fires (s : State)
    (hr : s.m_running = true) (h0 : s.m_activeConnectionIdx ≠ 0) :
    failovertimer_elapsed s false =
      (match s.p_client with
       | none => (Outcome.nullClient,
           { s with m_activeConnectionIdx := 0, m_connectionAttempt := 0,
                    m_connectionSwitches := (s.m_connectionSwitches + 1) % UINT_MOD })
       | some _ => (Outcome.returned,
           { s with m_activeConnectionIdx := 0, m_connectionAttempt := 0,
                    m_connectionSwitches := (s.m_connectionSwitches + 1) % UINT_MOD,
                    effects := s.effects ++ [Effect.clientDisconnect] })) := by
  unfold failovertimer_elapsed
  cases hc : s.p_client <;>
    simp [hr, h0, hc, State.bumpSwitches, State.emit]

/-- The failover callback when it does not fire. -/
theorem failovertimer_elapsed_idle (s : State) (ec : Bool)
    (h : ¬ (ec = false ∧ s.m_running = true ∧ s.m_activeConnectionIdx ≠ 0)) :
    failovertimer_elapsed s ec = (Outcome.returned, s) := by
  unfold failovertimer_elapsed
  cases ec
  · cases hr : s.m_running
    · simp
    · by_cases h0 : s.m_activeConnectionIdx = 0
      · simp [h0]
      · exact absurd ⟨rfl, hr, h0⟩ h
  · simp

/-- C18. The failover-timer callback changes the manager state exactly when it was not
cancelled (no error), running is set and the cursor is not 0. In that case the cursor is
set to 0, attempts is reset to 0, connection-switches is incremented by one (in unsigned
arithmetic), the settings (the registry among them), epoch-changes and the flags are
unchanged, and on the active client one call is issued, a disconnect, after which the
callback returns. In every other case the callback returns with the whole state,
including the trace of issued calls, as it was. -/
theorem failovertimer_elapsed_spec (s : State) (ec : Bool) :
    ((failovertimer_elapsed s ec).2 ≠ s ↔
      (ec = false ∧ s.m_running = true ∧ s.m_activeConnectionIdx ≠ 0)) ∧
    ((ec = false ∧ s.m_running = true ∧ s.m_activeConnectionIdx ≠ 0) →
      (failovertimer_elapsed s ec).2.m_activeConnectionIdx = 0 ∧
      (failovertimer_elapsed s ec).2.m_connectionAttempt = 0 ∧
      (failovertimer_elapsed s ec).2.m_connectionSwitches =
        (s.m_connectionSwitches + 1) % UINT_MOD ∧
      (failovertimer_elapsed s ec).2.m_Settings = s.m_Settings ∧
      (failovertimer_elapsed s ec).2.m_epochChanges = s.m_epochChanges ∧
      (failovertimer_elapsed s ec).2.m_running = s.m_running ∧
      (failovertimer_elapsed s ec).2.m_async_pending = s.m_async_pending ∧
      (failovertimer_elapsed s ec).2.p_client = s.p_client ∧
      (∀ c, s.p_client = some c →
        (failovertimer_elapsed s ec).1 = Outcome.returned ∧
        (failovertimer_elapsed s ec).2.effects = s.effects ++ [Effect.clientDisconnect])) ∧
    (¬ (ec = false ∧ s.m_running = true ∧ s.m_activeConnectionIdx ≠ 0) →
      failovertimer_elapsed s ec = (Outcome.returned, s)) := by
  refine ⟨?_, ?_, failovertimer_elapsed_idle s ec⟩
  · constructor
    · intro hne
      by_contra hcond
      exact hne (by rw [failovertimer_elapsed_idle s ec hcond])
    · rintro ⟨hec, hr, h0⟩ heq
      subst hec
      have hidx : (failovertimer_elapsed s false).2.m_activeConnectionIdx = 0 := by
        rw [failovertimer_elapsed_fires s hr h0]
        cases s.p_client <;> rfl
      rw [heq] at hidx
      exact h0 hidx
  · rintro ⟨hec, hr, h0⟩
    subst hec
    rw [failovertimer_elapsed_fires s hr h0]
    cases hc : s.p_client with
    | none =>
      refine ⟨rfl, rfl, rfl, rfl, rfl, rfl, rfl, rfl, ?_⟩
      intro c hcc
      cases hcc
    | some c =>
      refine ⟨rfl, rfl, rfl, rfl, rfl, rfl, rfl, rfl, ?_⟩
      intro c2 _
      exact ⟨rfl, rfl⟩

/-- C18 on the manager mining on B (cursor 1, running): on expiry the cursor returns to
0, attempts is 0, a third switch is counted and the client is disconnected; a cancelled
timer changes nothing. -/
theorem failovertimer_elapsed_spec_witness :
    (failovertimer_elapsed miningOnB false).2.m_activeConnectionIdx = 0 ∧
    (failovertimer_elapsed miningOnB false).2.m_connectionSwitches = 3 ∧
    (failovertimer_elapsed miningOnB false).2.effects = [Effect.clientDisconnect] ∧
    failovertimer_elapsed miningOnB true = (Outcome.returned, miningOnB) :=
  have h := (failovertimer_elapsed_spec miningOnB false).2.1 (by decide)
  ⟨h.1, h.2.2.1.trans (by decide),
   (h.2.2.2.2.2.2.2.2 (connectedClient epB) (by decide)).2.trans (by decide),
   (failovertimer_elapsed_spec miningOnB true).2.2 (by decide)⟩

/-- After the rotate step, with a positive threshold, the registry is empty or attempts
is below the threshold. -/
theorem rotateStep_attempt (x : State) (hm : 0 < x.m_Settings.connectionMaxRetries) :
    (rotateStep x).connections = [] ∨
    (rotateStep x).m_connectionAttempt < x.m_Settings.connectionMaxRetries := by
  unfold rotateStep
  split
  · right
    rw [clampIdx_eq]
    exact hm
  · rename_i h
    by_cases hnil : x.connections = []
    · exact Or.inl hnil
    · right
      by_contra hlt
      apply h
      refine ⟨?_, by omega, by omega⟩
      intro hemp
      exact hnil (List.isEmpty_iff.mp hemp)

/-- The last step of rotateConnect keeps attempts, or increments it on a non-empty
registry. -/
theorem connectOrTerminate_attempt (r : State) :
    (connectOrTerminate r).2.m_connectionAttempt = r.m_connectionAttempt ∨
    (r.connections ≠ [] ∧
      (connectOrTerminate r).2.m_connectionAttempt = (r.m_connectionAttempt + 1) % UINT_MOD) := by
  by_cases hnil : r.connections = []
  · left
    rw [connectOrTerminate_terminate r (Or.inl hnil), terminateStep_eq]
  · cases hv : r.connections[r.m_activeConnectionIdx]? with
    | none =>
      left
      have hne : r.connections.isEmpty = false := by
        cases hl : r.connections with
        | nil => exact absurd hl hnil
        | cons a l => rfl
      unfold connectOrTerminate
      simp only [hne, Bool.false_eq_true, if_false, hv]
    | some v =>
      by_cases hhost : v.Host = "exit"
      · left
        rw [connectOrTerminate_terminate r (Or.inr ⟨v, hv, hhost⟩), terminateStep_eq]
      · right
        rw [connectOrTerminate_connect r v hv hhost]
        exact ⟨hnil, (connectStep_fields r v).2.2.2.1⟩

/-- rotateConnect never changes max-retries, and with a positive threshold it keeps
attempts at or below the threshold. -/
theorem rotateConnect_attemptsBounded (s : State)
    (hm : 0 < s.m_Settings.connectionMaxRetries) (h : attemptsBounded s) :
    (rotateConnect s).2.m_Settings.connectionMaxRetries = s.m_Settings.connectionMaxRetries ∧
    attemptsBounded (rotateConnect s).2 := by
  unfold attemptsBounded at h ⊢
  unfold rotateConnect
  cases hc : s.clientConnected
  · simp only [Bool.false_eq_true, if_false]
    rw [clampIdx_eq]
    obtain ⟨x, hx⟩ : ∃ x : State, { s with m_activeConnectionIdx :=
      if s.m_activeConnectionIdx < s.connections.length then s.m_activeConnectionIdx
      else 0 } = x := ⟨_, rfl⟩
    rw [hx]
    have hxm : x.m_Settings = s.m_Settings := by rw [← hx]
    have hxa : x.m_connectionAttempt = s.m_connectionAttempt := by rw [← hx]
    cases hu : x.connections[x.m_activeConnectionIdx]? with
    | none =>
      show x.m_Settings.connectionMaxRetries = _ ∧
        x.m_connectionAttempt ≤ x.m_Settings.connectionMaxRetries
      rw [hxm, hxa]
      exact ⟨rfl, h⟩
    | some u =>
      show (connectOrTerminate (rotateStep (discardStep x u))).2.m_Settings.connectionMaxRetries = _ ∧
        (connectOrTerminate (rotateStep (discardStep x u))).2.m_connectionAttempt ≤
          (connectOrTerminate (rotateStep (discardStep x u))).2.m_Settings.connectionMaxRetries
      have hd := discardStep_frame x u
      have hr := rotateStep_frame (discardStep x u)
      have hra := rotateStep_attempt (discardStep x u) (by rw [hd.2.2.2.2.1, hxm]; exact hm)
      have hreg := connectOrTerminate_registry (rotateStep (discardStep x u))
      have hatt := connectOrTerminate_attempt (rotateStep (discardStep x u))
      obtain ⟨d, hdd⟩ : ∃ d : State, discardStep x u = d := ⟨_, rfl⟩
      rw [hdd] at hd hr hra hreg hatt ⊢
      obtain ⟨r, hrr⟩ : ∃ r : State, rotateStep d = r := ⟨_, rfl⟩
      rw [hrr] at hr hra hreg hatt ⊢
      have hmr : r.m_Settings.connectionMaxRetries = s.m_Settings.connectionMaxRetries := by
        rw [hr.2.2.2.2.1, hd.2.2.2.2.1, hxm]
      have hda : d.m_connectionAttempt ≤ s.m_connectionAttempt := by
        rcases hd.2.2.2.2.2 with e | e
        · rw [e, hxa]
        · rw [e]; exact Nat.zero_le _
      have hrattempt : r.m_connectionAttempt ≤ s.m_connectionAttempt := by
        rcases hr.2.2.2.2.2 with e | e
        · rw [e]; exact hda
        · rw [e]; exact Nat.zero_le _
      rw [hreg.1, hmr]
      refine ⟨rfl, ?_⟩
      rcases hatt with e | ⟨hne, e⟩
      · rw [e]; omega
      · rw [e]
        have hlt : r.m_connectionAttempt < s.m_Settings.connectionMaxRetries := by
          rcases hra with h1 | h1
          · exact absurd h1 hne
          · rw [hd.2.2.2.2.1, hxm] at h1; exact h1
        exact Nat.le_trans (Nat.mod_le _ _) hlt
  · simp only [if_true]
    exact ⟨trivial, h⟩

/-- A step that keeps the settings and keeps or resets attempts preserves the bound on
attempts. -/
theorem attemptsBounded_step (s t : State) (hm : t.m_Settings = s.m_Settings)
    (ha : t.m_connectionAttempt = s.m_connectionAttempt ∨ t.m_connectionAttempt = 0)
    (h : attemptsBounded s) : attemptsBounded t := by
  unfold attemptsBounded at h ⊢
  rw [hm]
  rcases ha with e | e
  · rw [e]; exact h
  · rw [e]; exact Nat.zero_le _

/-- The on-connected callback keeps the settings and resets attempts. -/
theorem onConnected_attempt (s : State) :
    (onConnected s).2.m_Settings = s.m_Settings ∧ (onConnected s).2.m_connectionAttempt = 0 := by
  unfold onConnected
  simp only [State.emit]
  split <;> split <;> (try split) <;> (try split) <;> exact ⟨rfl, rfl⟩

/-- The on-disconnected callback keeps the settings and attempts. -/
theorem onDisconnected_attempt (s : State) :
    (onDisconnected s).2.m_Settings = s.m_Settings ∧
    (onDisconnected s).2.m_connectionAttempt = s.m_connectionAttempt := by
  cases hc : s.p_client with
  | none =>
    unfold onDisconnected
    simp only [hc]
    exact ⟨trivial, trivial⟩
  | some c =>
    have h := onDisconnected_fields s c hc
    exact ⟨h.2.1, h.2.2.2.1⟩

/-- setActiveConnectionCommon keeps the settings and keeps or resets attempts. -/
theorem setActiveConnectionCommon_attempt (s : State) (idx : Nat) :
    (setActiveConnectionCommon s idx).2.m_Settings = s.m_Settings ∧
    ((setActiveConnectionCommon s idx).2.m_connectionAttempt = s.m_connectionAttempt ∨
      (setActiveConnectionCommon s idx).2.m_connectionAttempt = 0) := by
  unfold setActiveConnectionCommon
  cases hp : s.m_async_pending
  · by_cases h2 : idx = s.m_activeConnectionIdx
    · subst h2; simp
    · cases hc : s.p_client <;> simp [h2, hc, State.bumpSwitches, State.emit]
  · simp

/-- The failover callback keeps the settings and keeps or resets attempts. -/
theorem failovertimer_elapsed_attempt (s : State) (ec : Bool) :
    (failovertimer_elapsed s ec).2.m_Settings = s.m_Settings ∧
    ((failovertimer_elapsed s ec).2.m_connectionAttempt = s.m_connectionAttempt ∨
      (failovertimer_elapsed s ec).2.m_connectionAttempt = 0) := by
  by_cases h : ec = false ∧ s.m_running = true ∧ s.m_activeConnectionIdx ≠ 0
  · obtain ⟨hec, hr, h0⟩ := h
    subst hec
    rw [failovertimer_elapsed_fires s hr h0]
    cases s.p_client <;> exact ⟨rfl, Or.inr rfl⟩
  · rw [failovertimer_elapsed_idle s ec h]
    exact ⟨rfl, Or.inl rfl⟩

/-- Along a run of failing attempts max-retries is unchanged and, with a positive
threshold, attempts stays at or below it. -/
theorem rotateFailing_attemptsBounded (s : State)
    (hm : 0 < s.m_Settings.connectionMaxRetries) (h : attemptsBounded s) :
    ∀ k, (rotateFailing k s).2.m_Settings.connectionMaxRetries =
        s.m_Settings.connectionMaxRetries ∧
      attemptsBounded (rotateFailing k s).2 := by
  intro k
  induction k with
  | zero => exact ⟨rfl, h⟩
  | succ k ih =>
    cases k with
    | zero => exact rotateConnect_attemptsBounded s hm h
    | succ k =>
      show (rotateConnect (onDisconnected (rotateFailing (k + 1) s).2).2).2.m_Settings.connectionMaxRetries
          = _ ∧ attemptsBounded (rotateConnect (onDisconnected (rotateFailing (k + 1) s).2).2).2
      obtain ⟨ihm, iha⟩ := ih
      have hd := onDisconnected_attempt (rotateFailing (k + 1) s).2
      obtain ⟨t, ht⟩ : ∃ t : State, (onDisconnected (rotateFailing (k + 1) s).2).2 = t :=
        ⟨_, rfl⟩
      rw [ht] at hd ⊢
      have htm : t.m_Settings.connectionMaxRetries = s.m_Settings.connectionMaxRetries := by
        rw [hd.1, ihm]
      have hta : attemptsBounded t := attemptsBounded_step _ t hd.1 (Or.inl hd.2) iha
      have hr := rotateConnect_attemptsBounded t (by rw [htm]; exact hm) hta
      exact ⟨by rw [hr.1, htm], hr.2⟩

/-- C19. When max-retries > 0, "attempts ≤ max-retries" is an invariant: it holds in
the freshly constructed manager (attempts is 0), and from every state that satisfies it
rotateConnect (on every path, whatever its outcome), the on-connected callback, both
forms of setActiveConnection and the failover callback lead to a state that satisfies
it; so along any run of consecutive failing attempts the attempts counter, which counts
the attempts made in a row on the current endpoint, never exceeds max-retries. -/
theorem attemptsBounded_invariant :
    (∀ st, attemptsBounded (construct st)) ∧
    (∀ s, 0 < s.m_Settings.connectionMaxRetries → attemptsBounded s →
      attemptsBounded (rotateConnect s).2 ∧
      attemptsBounded (onConnected s).2 ∧
      (∀ idx, attemptsBounded (setActiveConnection s idx).2) ∧
      (∀ uri, attemptsBounded (setActiveConnectionStr s uri).2) ∧
      (∀ ec, attemptsBounded (failovertimer_elapsed s ec).2) ∧
      (∀ k, attemptsBounded (rotateFailing k s).2)) := by
  refine ⟨fun st => Nat.zero_le _, ?_⟩
  intro s hm h
  refine ⟨(rotateConnect_attemptsBounded s hm h).2, ?_, ?_, ?_, ?_,
    fun k => (rotateFailing_attemptsBounded s hm h k).2⟩
  · exact attemptsBounded_step s _ (onConnected_attempt s).1 (Or.inr (onConnected_attempt s).2) h
  · intro idx
    unfold setActiveConnection
    by_cases hi : idx ≥ s.connections.length
    · rw [if_pos hi]; exact h
    · rw [if_neg hi]
      exact attemptsBounded_step s _ (setActiveConnectionCommon_attempt s idx).1
        (setActiveConnectionCommon_attempt s idx).2 h
  · intro uri
    unfold setActiveConnectionStr
    cases hf : findConnection uri s.connections 0 with
    | none => exact h
    | some i =>
      exact attemptsBounded_step s _ (setActiveConnectionCommon_attempt s _).1
        (setActiveConnectionCommon_attempt s _).2 h
  · intro ec
    exact attemptsBounded_step s _ (failovertimer_elapsed_attempt s ec).1
      (failovertimer_elapsed_attempt s ec).2 h

/-- C19 on the scenario registry [P, F] with max-retries 3: after start() the bound
holds, and it still holds after five consecutive failing invocations of rotateConnect
and after the on-connected callback. -/
theorem attemptsBounded_invariant_witness :
    attemptsBounded startedAB ∧
    attemptsBounded (rotateFailing 5 startedAB).2 ∧
    attemptsBounded (onConnected startedAB).2 :=
  have h := attemptsBounded_invariant.2 startedAB (by decide) (by decide)
  ⟨by decide, h.2.2.2.2.2 5, h.2.1⟩

/-! ## The endpoint handed to the client -/

/-- The terminal path issues no setConnection. -/
theorem terminateStep_no_setConnection (t : State) (v : URI) (l : List Effect)
    (h : (terminateStep t).2.effects = t.effects ++ l) :
    Effect.clientSetConnection v ∉ l := by
  rw [terminateStep_eq] at h
  have hl : (if t.farm.isMining = true then [Effect.farmStop] else []) ++
      [Effect.raiseSIGTERM] = l := by
    have h2 : t.effects ++ ((if t.farm.isMining = true then [Effect.farmStop] else []) ++
        [Effect.raiseSIGTERM]) = t.effects ++ l := by
      rw [← List.append_assoc]
      exact h
    exact List.append_cancel_left h2
  rw [← hl]
  cases t.farm.isMining <;> simp

/-- The connection attempt issues setConnection for the endpoint it is given only. -/
theorem connectStep_setConnection (t : State) (w v : URI) (l : List Effect)
    (h : (connectStep t w).2.effects = t.effects ++ l)
    (hv : Effect.clientSetConnection v ∈ l) : v = w := by
  obtain ⟨k, hk⟩ := (connectStep_fields t w).2.2.2.2.2.2.2
  rw [hk, List.append_assoc] at h
  have hl := List.append_cancel_left h
  rw [← hl] at hv
  cases t.p_client <;>
    by_cases hd : (t.m_connectionAttempt + 1) % UINT_MOD > 1 ∧ t.m_Settings.delayBeforeRetry > 0 <;>
    simp [hd] at hv <;> exact hv

/-- When rotateConnect proceeds to a connection attempt on v, no client was connected
and v is the endpoint at the cursor after the removal and rotation steps, with a host
other than `exit`. -/
theorem handsOver_inv (s : State) (c : Nat) (u v : URI)
    (hnc : s.clientConnected = false)
    (hc : c = if s.m_activeConnectionIdx < s.connections.length then s.m_activeConnectionIdx
      else 0)
    (hu : s.connections[c]? = some u)
    (h : handsOver s v) :
    (rotateStep (discardStep { s with m_activeConnectionIdx := c } u)).connections[
      (rotateStep (discardStep { s with m_activeConnectionIdx := c } u)).m_activeConnectionIdx]? =
        some v ∧ v.Host ≠ "exit" ∧
    rotateConnect s =
      connectStep (rotateStep (discardStep { s with m_activeConnectionIdx := c } u)) v := by
  obtain ⟨l, hl, hv⟩ := h
  have hR := rotateConnect_eq s c u hnc hc hu
  obtain ⟨x, hx⟩ : ∃ x : State, { s with m_activeConnectionIdx := c } = x := ⟨_, rfl⟩
  rw [hx] at hR ⊢
  have hxe : x.effects = s.effects := by rw [← hx]
  have hd := discardStep_frame x u
  have hr := rotateStep_frame (discardStep x u)
  obtain ⟨t, ht⟩ : ∃ t : State, rotateStep (discardStep x u) = t := ⟨_, rfl⟩
  rw [ht] at hR hr ⊢
  have hte : t.effects = s.effects := by rw [hr.2.1, hd.2.1, hxe]
  rw [hR, ← hte] at hl
  by_cases hnil : t.connections = []
  · rw [connectOrTerminate_terminate t (Or.inl hnil)] at hl
    exact absurd hv (terminateStep_no_setConnection t v l hl)
  · cases hw : t.connections[t.m_activeConnectionIdx]? with
    | none =>
      have hne : t.connections.isEmpty = false := by
        cases hcs : t.connections with
        | nil => exact absurd hcs hnil
        | cons a r => rfl
      have he : (connectOrTerminate t).2.effects = t.effects := by
        unfold connectOrTerminate
        simp only [hne, Bool.false_eq_true, if_false, hw]
      rw [he] at hl
      have : l = [] := by
        have h2 : t.effects ++ [] = t.effects ++ l := by
          rw [List.append_nil]; exact hl
        exact (List.append_cancel_left h2).symm
      rw [this] at hv
      cases hv
    | some w =>
      by_cases hhost : w.Host = "exit"
      · rw [connectOrTerminate_terminate t (Or.inr ⟨w, hw, hhost⟩)] at hl
        exact absurd hv (terminateStep_no_setConnection t v l hl)
      · rw [connectOrTerminate_connect t w hw hhost] at hl
        have hvw := connectStep_setConnection t w v l hl hv
        subst hvw
        exact ⟨rfl, hhost, by rw [hR, connectOrTerminate_connect t v hw hhost]⟩

/-- C20 fails as stated, in both cases it names. On [A, B] with both endpoints marked
unrecoverable and no connected client, rotateConnect removes A and hands B, which is
marked unrecoverable, to the new client. On [A, B] with only B marked unrecoverable,
max-retries 1 and attempts 1 at cursor 0, rotateConnect advances the cursor to 1 and
hands B to the new client. -/
theorem rotateConnect_handsOver_counterexample :
    (startedBothDead.clientConnected = false ∧ handsOver startedBothDead epDeadB ∧
      (∃ cl, (rotateConnect startedBothDead).2.p_client = some cl ∧
        cl.getConnection = some epDeadB) ∧
      epDeadB.IsUnrecoverable = true) ∧
    (exhaustedBeforeDead.clientConnected = false ∧ handsOver exhaustedBeforeDead epDeadB ∧
      (rotateConnect exhaustedBeforeDead).2.m_activeConnectionIdx = 1 ∧
      (∃ cl, (rotateConnect exhaustedBeforeDead).2.p_client = some cl ∧
        cl.getConnection = some epDeadB)) :=
  ⟨⟨by decide,
    ⟨[Effect.clientNew (ClientKind.EthStratumClient 0 0), Effect.clientSetConnection epDeadB,
      Effect.clientConnect], by decide, by decide⟩,
    ⟨_, rfl, by decide⟩, by decide⟩,
   ⟨by decide,
    ⟨[Effect.clientDestroy, Effect.clientNew (ClientKind.EthStratumClient 0 0),
      Effect.clientSetConnection epDeadB, Effect.clientConnect], by decide, by decide⟩,
    by decide, ⟨_, rfl, by decide⟩⟩⟩

/-- C20, amended. With no connected client (u is the endpoint at the clamped cursor c),
if rotateConnect proceeds to a connection attempt on v, then v is the endpoint at the
cursor when the attempt is made, a client holds v and the host of v is not `exit`; and
when this invocation neither removed an endpoint nor advanced the cursor (u is not
marked unrecoverable and max-retries is 0 or attempts is below it), v is u and is not
marked unrecoverable. -/
theorem rotateConnect_handsOver_spec (s : State) (c : Nat) (u v : URI)
    (hnc : s.clientConnected = false)
    (hc : c = if s.m_activeConnectionIdx < s.connections.length then s.m_activeConnectionIdx
      else 0)
    (hu : s.connections[c]? = some u)
    (h : handsOver s v) :
    (rotateConnect s).1 = Outcome.returned ∧
    (rotateConnect s).2.connections[(rotateConnect s).2.m_activeConnectionIdx]? = some v ∧
    (∃ cl, (rotateConnect s).2.p_client = some cl ∧ cl.getConnection = some v) ∧
    v.Host ≠ "exit" ∧
    (u.IsUnrecoverable = false →
      (s.m_Settings.connectionMaxRetries = 0 ∨
        s.m_connectionAttempt < s.m_Settings.connectionMaxRetries) →
      v = u ∧ v.IsUnrecoverable = false ∧
      (rotateConnect s).2.m_Settings = s.m_Settings ∧
      (rotateConnect s).2.m_activeConnectionIdx = c) := by
  obtain ⟨hv, hhost, hR⟩ := handsOver_inv s c u v hnc hc hu h
  obtain ⟨x, hx⟩ : ∃ x : State, { s with m_activeConnectionIdx := c } = x := ⟨_, rfl⟩
  rw [hx] at hv hR
  have hxm : x.m_Settings = s.m_Settings := by rw [← hx]
  have hxa : x.m_connectionAttempt = s.m_connectionAttempt := by rw [← hx]
  have hxi : x.m_activeConnectionIdx = c := by rw [← hx]
  have hf := connectStep_fields (rotateStep (discardStep x u)) v
  rw [hR]
  refine ⟨hf.1, ?_, ?_, hhost, ?_⟩
  · show (connectStep _ v).2.m_Settings.connections[_]? = _
    rw [hf.2.1, hf.2.2.1]
    exact hv
  · obtain ⟨cl, h1, h2, _⟩ := hf.2.2.2.2.2.2.1
    exact ⟨cl, h1, h2⟩
  · intro hrec hatt
    have hatt2 : x.m_Settings.connectionMaxRetries = 0 ∨
        x.m_connectionAttempt < x.m_Settings.connectionMaxRetries := by
      rw [hxm, hxa]; exact hatt
    have hkeep : rotateStep (discardStep x u) = x := by
      rw [discardStep_keep x u hrec (Or.inr hatt2), rotateStep_idle x hatt2]
    rw [hkeep] at hv hf ⊢
    have hvu : v = u := by
      have hxu : x.connections[x.m_activeConnectionIdx]? = some u := by
        show x.m_Settings.connections[x.m_activeConnectionIdx]? = some u
        rw [hxm, hxi]; exact hu
      rw [hxu] at hv
      exact (Option.some.inj hv).symm
    refine ⟨hvu, by rw [hvu]; exact hrec, by rw [hf.2.1, hxm], by rw [hf.2.2.1, hxi]⟩

/-- C20 amended, on [A, B] with max-retries 0 after 7 failed attempts on A: the
invocation removes nothing and does not advance, and the endpoint handed to the client
is A, which is not marked unrecoverable. -/
theorem rotateConnect_handsOver_spec_witness :
    handsOver noThreshold epA ∧ epA.IsUnrecoverable = false ∧
    (rotateConnect noThreshold).2.connections[
      (rotateConnect noThreshold).2.m_activeConnectionIdx]? = some epA :=
  have hh : handsOver noThreshold epA :=
    ⟨[Effect.clientDestroy, Effect.clientNew (ClientKind.EthStratumClient 0 0),
      Effect.clientSetConnection epA, Effect.clientConnect], by decide, by decide⟩
  have h := rotateConnect_handsOver_spec noThreshold 0 epA epA (by decide) (by decide)
    (by decide) hh
  ⟨hh, (h.2.2.2.2 (by decide) (by decide)).2.1, h.2.1⟩

end PoolManager
